import Mathlib

/-!
Shallow embedding of the paired-stream extraction engine of this
repository (three variants: cxml.c, xmline.cpp, clatlong.c), together
with theorems about the engine's pairing, labelling, overflow and reset
behaviour.

Modelling conventions, shared by all three variants:

* The libxml2 pull reader is outside the engine (the spec treats it as an
  external collaborator).  Each notification the reader delivers becomes
  one constructor of an event type; the data the engine would fetch from
  the reader (element text, attribute values, numeric parse results)
  travels as the constructor's payload, with `none` standing for a NULL
  pointer / failed read exactly where the C checks the return value.
* `double` and `long` values are carried opaquely as `Int` tokens: the
  engine never computes with them, it only stores, moves and prints
  them.  Numeric parsing is embedded concretely only where a claim
  depends on it (strtol, base 10); strtod stays abstract as the
  `Option Int` payload of the corresponding event.
* stdout is modelled as a list of lines (pair records plus raw
  side-channel lines such as publicationTime); stderr, where the
  variant writes diagnostics, is a list of message strings.
* Dynamic allocation (malloc/realloc in cxml.c, std::deque growth in
  xmline.cpp) is assumed to succeed; the corresponding queues are plain
  lists.  The fixed-size ring of clatlong.c is embedded with its exact
  index arithmetic.
-/

/-- 2^32: the `unsigned int idx` pair counter of cxml.c / xmline.cpp
wraps at this modulus. -/
def U32 : Nat := 4294967296

/-- LONG_MAX on LP64, the value strtol clamps to (setting ERANGE) on
positive overflow. -/
def LONG_MAX : Int := 9223372036854775807

/-- LONG_MIN on LP64, the value strtol clamps to on negative overflow. -/
def LONG_MIN : Int := -9223372036854775808

/-- C `isspace` in the default locale, as skipped by strtol. -/
def cIsSpace (c : Char) : Bool :=
  c = ' ' || c = '\t' || c = '\n' || c = '\r' ||
    c = Char.ofNat 11 || c = Char.ofNat 12

/-- Numeric value of a run of decimal digits. -/
def digitsVal (ds : List Char) : Nat :=
  ds.foldl (fun a c => a * 10 + (c.toNat - 48)) 0

/-- `strtol(s, &end, 10)`.  Returns `none` when the subject sequence is
empty (i.e. `end == str`, no digits consumed); otherwise returns the
(clamped) value together with the ERANGE flag, which is set exactly when
the numeral lies outside [LONG_MIN, LONG_MAX]. -/
def strtol10 (s : String) : Option (Int × Bool) :=
  let cs := s.toList.dropWhile cIsSpace
  let signRest : Int × List Char :=
    match cs with
    | '-' :: r => (-1, r)
    | '+' :: r => (1, r)
    | r => (1, r)
  let ds := signRest.2.takeWhile Char.isDigit
  if ds.isEmpty then none
  else
    let raw : Int := signRest.1 * (digitsVal ds : Int)
    if raw > LONG_MAX then some (LONG_MAX, true)
    else if raw < LONG_MIN then some (LONG_MIN, true)
    else some (raw, false)

/-- cxml.c `read_element_long`: NULL text fails; strtol with no digits
consumed fails; ERANGE fails.  `txt = none` models
`xmlTextReaderReadString` returning NULL. -/
def read_element_long (txt : Option String) : Option Int :=
  match txt with
  | none => none
  | some s =>
    match strtol10 s with
    | none => none
    | some (v, erange) => if erange then none else some v

/-- xmline.cpp `readElementLong`: NULL text fails; strtol with no digits
consumed fails; note that unlike cxml.c it performs NO errno/ERANGE
check, so an out-of-range numeral is accepted with the clamped value. -/
def readElementLong (txt : Option String) : Option Int :=
  match txt with
  | none => none
  | some s =>
    match strtol10 s with
    | none => none
    | some (v, _) => some v

/-- One output record of the indexed variants (cxml.c, xmline.cpp):
`printf("%u %s %g %ld\n", idx, site, speed, flow)`. -/
structure RecX where
  idx : Nat
  site : String
  speed : Int
  flow : Int
deriving DecidableEq, Repr

/-- One stdout line of the indexed variants: either the raw echo of a
side-channel element (publicationTime) or a pair record. -/
inductive LineX where
  | raw (s : String)
  | record (r : RecX)
deriving DecidableEq, Repr

/-- The pairing loop shared (line for line) by cxml.c `state_flush_pairs`
and xmline.cpp `ParserState::flushPairs`: while both queues are
non-empty, pop the front of each and print one record, post-incrementing
the unsigned counter (hence the mod 2^32).  It returns the final
counter, the two remaining queues and the lines printed, in order. -/
def flushLoop (site : String) (idx : Nat) (sp fl : List Int) :
    Nat × List Int × List Int × List LineX :=
  match sp, fl with
  | s :: sps, f :: fls =>
    let r := flushLoop site ((idx + 1) % U32) sps fls
    (r.1, r.2.1, r.2.2.1, LineX.record ⟨idx, site, s, f⟩ :: r.2.2.2)
  | sp, fl => (idx, sp, fl, [])

/-- Notifications delivered by the reader loop of cxml.c / xmline.cpp,
one constructor per element name the dispatcher recognises:
`pubTime` = publicationTime start (payload: element text),
`blockStart` = siteMeasurements start,
`siteRef` = measurementSiteReference start (payload: "id" attribute),
`speed` / `flow` = speed / vehicleFlowRate starts (payload: the
read_element_double / read_element_long result),
`blockEnd` = siteMeasurements end; other start/end elements are the
dispatcher's no-op default branches. -/
inductive Ev where
  | pubTime (txt : Option String)
  | blockStart
  | siteRef (attr : Option String)
  | speed (p : Option Int)
  | flow (p : Option Int)
  | otherStart
  | blockEnd
  | otherEnd
deriving DecidableEq, Repr

namespace CXml

/-- cxml.c `parser_state_t`: site_id is a malloc'd string or NULL
(`none`); the two dynamic queues are lists (allocation assumed to
succeed); idx is the unsigned 1-based pair counter. -/
structure parser_state_t where
  site_id : Option String
  speeds : List Int
  flows : List Int
  idx : Nat
deriving DecidableEq, Repr

/-- cxml.c `state_init`. -/
def state_init : parser_state_t := ⟨none, [], [], 1⟩

/-- cxml.c `state_reset_block`: frees site_id, clears both queues
(keeping capacity, invisible at list level), resets idx to 1. -/
def state_reset_block (st : parser_state_t) : parser_state_t :=
  { st with site_id := none, speeds := [], flows := [], idx := 1 }

/-- The site string chosen at the top of `state_flush_pairs`:
`(state->site_id && state->site_id[0]) ? state->site_id :
"(unknown_site)"`. -/
def siteOf (site_id : Option String) : String :=
  match site_id with
  | some s => if s = "" then "(unknown_site)" else s
  | none => "(unknown_site)"

/-- cxml.c `state_flush_pairs`. -/
def state_flush_pairs (st : parser_state_t) : parser_state_t × List LineX :=
  let site := siteOf st.site_id
  let r := flushLoop site st.idx st.speeds st.flows
  ({ st with idx := r.1, speeds := r.2.1, flows := r.2.2.1 }, r.2.2.2)

/-- cxml.c `handle_start_element`.  Successful reads push and then flush;
failed reads fall through; dq_push_back/lq_push_back allocation failure
is assumed not to occur (see file header). -/
def handle_start_element (st : parser_state_t) (e : Ev) :
    parser_state_t × List LineX :=
  match e with
  | Ev.pubTime (some s) => (st, [LineX.raw s])
  | Ev.pubTime none => (st, [])
  | Ev.blockStart => (state_reset_block st, [])
  | Ev.siteRef (some s) => ({ st with site_id := some s }, [])
  | Ev.siteRef none => (st, [])
  | Ev.speed (some v) => state_flush_pairs { st with speeds := st.speeds ++ [v] }
  | Ev.speed none => (st, [])
  | Ev.flow (some v) => state_flush_pairs { st with flows := st.flows ++ [v] }
  | Ev.flow none => (st, [])
  | _ => (st, [])

/-- cxml.c `handle_end_element` for siteMeasurements: flush remaining
matched pairs, then reset the block. -/
def handle_end_element (st : parser_state_t) : parser_state_t × List LineX :=
  let r := state_flush_pairs st
  (state_reset_block r.1, r.2)

/-- One iteration of cxml.c `process_reader`: dispatch on node type. -/
def process_event (st : parser_state_t) (e : Ev) : parser_state_t × List LineX :=
  match e with
  | Ev.blockEnd => handle_end_element st
  | Ev.otherEnd => (st, [])
  | e => handle_start_element st e

/-- cxml.c `process_reader`: fold the events, accumulating stdout. -/
def process_reader (st : parser_state_t) (evs : List Ev) :
    parser_state_t × List LineX :=
  match evs with
  | [] => (st, [])
  | e :: rest =>
    let r1 := process_event st e
    let r2 := process_reader r1.1 rest
    (r2.1, r1.2 ++ r2.2)

end CXml

namespace XmLine

/-- xmline.cpp `ParserState`: siteId is a std::string (empty = unset);
the two std::deques are lists; idx is the unsigned 1-based counter. -/
structure ParserState where
  siteId : String
  speeds : List Int
  flows : List Int
  idx : Nat
deriving DecidableEq, Repr

/-- The default-constructed `ParserState`. -/
def init : ParserState := ⟨"", [], [], 1⟩

/-- xmline.cpp `ParserState::resetBlock`. -/
def resetBlock (st : ParserState) : ParserState :=
  { st with siteId := "", speeds := [], flows := [], idx := 1 }

/-- xmline.cpp `ParserState::flushPairs`:
`siteId.empty() ? "(unknown_site)" : siteId.c_str()`, then the shared
pop-both-and-print loop. -/
def flushPairs (st : ParserState) : ParserState × List LineX :=
  let site := if st.siteId = "" then "(unknown_site)" else st.siteId
  let r := flushLoop site st.idx st.speeds st.flows
  ({ st with idx := r.1, speeds := r.2.1, flows := r.2.2.1 }, r.2.2.2)

/-- xmline.cpp `handleStartElement`.  Note `measurementSiteReference`
stores `readAttribute`'s output unconditionally, and readAttribute
clears the string on a missing attribute (unlike cxml.c, which keeps the
previous site_id in that case). -/
def handleStartElement (st : ParserState) (e : Ev) : ParserState × List LineX :=
  match e with
  | Ev.pubTime (some s) => (st, [LineX.raw s])
  | Ev.pubTime none => (st, [])
  | Ev.blockStart => (resetBlock st, [])
  | Ev.siteRef (some s) => ({ st with siteId := s }, [])
  | Ev.siteRef none => ({ st with siteId := "" }, [])
  | Ev.speed (some v) => flushPairs { st with speeds := st.speeds ++ [v] }
  | Ev.speed none => (st, [])
  | Ev.flow (some v) => flushPairs { st with flows := st.flows ++ [v] }
  | Ev.flow none => (st, [])
  | _ => (st, [])

/-- xmline.cpp `handleEndElement` for siteMeasurements. -/
def handleEndElement (st : ParserState) : ParserState × List LineX :=
  let r := flushPairs st
  (resetBlock r.1, r.2)

/-- One iteration of xmline.cpp `processReader`. -/
def processEvent (st : ParserState) (e : Ev) : ParserState × List LineX :=
  match e with
  | Ev.blockEnd => handleEndElement st
  | Ev.otherEnd => (st, [])
  | e => handleStartElement st e

/-- xmline.cpp `processReader`. -/
def processReader (st : ParserState) (evs : List Ev) :
    ParserState × List LineX :=
  match evs with
  | [] => (st, [])
  | e :: rest =>
    let r1 := processEvent st e
    let r2 := processReader r1.1 rest
    (r2.1, r1.2 ++ r2.2)

end XmLine

namespace CLatLong

/-- clatlong.c MAX_PAIRS: maximum unmatched latitude or longitude. -/
def MAX_PAIRS : Nat := 64

/-- clatlong.c `double_ring_t`: a fixed 64-slot array plus start/end
indices.  `data` is the backing array (uninitialised in C; the model
fills it with 0, which is never read before being written in executions
that stay in bounds); `end_` renders the C field `end`, a Lean keyword. -/
structure double_ring_t where
  data : List Int
  start : Nat
  end_ : Nat
deriving DecidableEq, Repr

/-- clatlong.c `dq_init` (the array contents are left as they are). -/
def dq_init : double_ring_t := ⟨List.replicate MAX_PAIRS 0, 0, 0⟩

/-- clatlong.c `dq_size`: `(end >= start) ? (end - start) : 0`. -/
def dq_size (q : double_ring_t) : Nat :=
  if q.end_ ≥ q.start then q.end_ - q.start else 0

/-- clatlong.c `dq_push_back`: reject when `dq_size >= MAX_PAIRS`, else
`data[end++] = value`.  The store is rendered with `List.set`, which
leaves the list unchanged when the index is outside the array: that is
the out-of-range branch of the embedded indexing (in C such a store
would write past `data`, which is undefined behaviour). -/
def dq_push_back (q : double_ring_t) (v : Int) : double_ring_t × Bool :=
  if dq_size q ≥ MAX_PAIRS then (q, false)
  else ({ q with data := q.data.set q.end_ v, end_ := q.end_ + 1 }, true)

/-- clatlong.c `dq_pop_front`: fail when empty, else `*out =
data[start++]`, and reset both indices to 0 when the queue became
empty. -/
def dq_pop_front (q : double_ring_t) : double_ring_t × Option Int :=
  if dq_size q = 0 then (q, none)
  else
    let v := q.data.getD q.start 0
    if q.start + 1 = q.end_ then
      ({ q with start := 0, end_ := 0 }, some v)
    else
      ({ q with start := q.start + 1 }, some v)

/-- clatlong.c `parser_state_t`: two 512-byte strings (empty = unset;
the MAX_TEXT truncation to 511 characters is not modelled, no claim
depends on string length) and the two rings. -/
structure parser_state_t where
  site_id : String
  date : String
  latitude : double_ring_t
  longitude : double_ring_t
deriving DecidableEq, Repr

/-- clatlong.c `state_init`. -/
def state_init : parser_state_t := ⟨"", "", dq_init, dq_init⟩

/-- clatlong.c `state_reset_block`: clears both strings and zeroes the
four indices; the array contents are untouched. -/
def state_reset_block (st : parser_state_t) : parser_state_t :=
  { st with
    site_id := ""
    date := ""
    latitude := { st.latitude with start := 0, end_ := 0 }
    longitude := { st.longitude with start := 0, end_ := 0 } }

/-- One output record of clatlong.c:
`printf("%s %s %g %g\n", site, date, lat, longi)`. -/
structure RecC where
  site : String
  date : String
  lat : Int
  lon : Int
deriving DecidableEq, Repr

/-- One stdout line of clatlong.c: raw publicationTime echo or record. -/
inductive LineC where
  | raw (s : String)
  | record (r : RecC)
deriving DecidableEq, Repr

/-- The body of the while loop of clatlong.c `state_flush_pairs`, with an
explicit iteration bound: while both rings are non-empty, pop one
element from each (breaking if a pop fails) and print one record.  Each
iteration pops exactly one latitude element, so the loop runs at most
`dq_size lat` times; `flushLoopC` below supplies that bound, making the
bounded recursion extensionally identical to the C while loop (when the
bound reaches 0 the latitude ring is empty and the loop condition is
false anyway). -/
def flushLoopF (site date : String) (fuel : Nat) (lat lon : double_ring_t) :
    double_ring_t × double_ring_t × List LineC :=
  match fuel with
  | 0 => (lat, lon, [])
  | fuel + 1 =>
    if dq_size lat > 0 ∧ dq_size lon > 0 then
      let p1 := dq_pop_front lat
      match p1.2 with
      | none => (p1.1, lon, [])
      | some la =>
        let p2 := dq_pop_front lon
        match p2.2 with
        | none => (p1.1, p2.1, [])
        | some lo =>
          let r := flushLoopF site date fuel p1.1 p2.1
          (r.1, r.2.1, LineC.record ⟨site, date, la, lo⟩ :: r.2.2)
    else (lat, lon, [])

/-- The while loop of clatlong.c `state_flush_pairs` (see
`flushLoopF`). -/
def flushLoopC (site date : String) (lat lon : double_ring_t) :
    double_ring_t × double_ring_t × List LineC :=
  flushLoopF site date (dq_size lat) lat lon

/-- clatlong.c `state_flush_pairs`: choose the site and date strings
(falling back to the sentinels), then run the pairing loop. -/
def state_flush_pairs (st : parser_state_t) : parser_state_t × List LineC :=
  let site := if st.site_id = "" then "(unknown_site)" else st.site_id
  let date := if st.date = "" then "(unknown_date)" else st.date
  let r := flushLoopC site date st.latitude st.longitude
  ({ st with latitude := r.1, longitude := r.2.1 }, r.2.2)

/-- The stderr diagnostic of clatlong.c `h_latitude` on a full queue,
with MAX_PAIRS substituted for %d. -/
def latFullMsg : String := "lat queue full (max 64), dropping value"

/-- The stderr diagnostic of clatlong.c `h_longitude` on a full queue. -/
def lonFullMsg : String := "longitude queue full (max 64), dropping value"

/-- Notifications for the clatlong.c element vocabulary:
`pubTime` = publicationTime (element text),
`blockStart` = measurementSiteTable start,
`siteRec` = measurementSiteRecord start ("id" attribute),
`versionTime` = measurementSiteRecordVersionTime (element text),
`lat` / `lon` = latitude / longitude starts (read_element_double
result), `blockEnd` = measurementSiteTable end. -/
inductive EvC where
  | pubTime (txt : Option String)
  | blockStart
  | siteRec (attr : Option String)
  | versionTime (txt : Option String)
  | lat (p : Option Int)
  | lon (p : Option Int)
  | otherStart
  | blockEnd
  | otherEnd
deriving DecidableEq, Repr

/-- clatlong.c `h_latitude`: parse, push (reporting a drop on a full
queue to stderr), and flush after a successful push. -/
def h_latitude (st : parser_state_t) (p : Option Int) :
    parser_state_t × List LineC × List String :=
  match p with
  | none => (st, [], [])
  | some v =>
    let r := dq_push_back st.latitude v
    if r.2 then
      let f := state_flush_pairs { st with latitude := r.1 }
      (f.1, f.2, [])
    else
      ({ st with latitude := r.1 }, [], [latFullMsg])

/-- clatlong.c `h_longitude`. -/
def h_longitude (st : parser_state_t) (p : Option Int) :
    parser_state_t × List LineC × List String :=
  match p with
  | none => (st, [], [])
  | some v =>
    let r := dq_push_back st.longitude v
    if r.2 then
      let f := state_flush_pairs { st with longitude := r.1 }
      (f.1, f.2, [])
    else
      ({ st with longitude := r.1 }, [], [lonFullMsg])

/-- clatlong.c `handle_start_element`: the DISPATCH table. -/
def handle_start_element (st : parser_state_t) (e : EvC) :
    parser_state_t × List LineC × List String :=
  match e with
  | EvC.pubTime (some s) => (st, [LineC.raw s], [])
  | EvC.pubTime none => (st, [], [])
  | EvC.blockStart => (state_reset_block st, [], [])
  | EvC.siteRec (some s) => ({ st with site_id := s }, [], [])
  | EvC.siteRec none => ({ st with site_id := "" }, [], [])
  | EvC.versionTime (some s) => ({ st with date := s }, [], [])
  | EvC.versionTime none => ({ st with date := "" }, [], [])
  | EvC.lat p => h_latitude st p
  | EvC.lon p => h_longitude st p
  | _ => (st, [], [])

/-- clatlong.c `handle_end_element` for measurementSiteTable. -/
def handle_end_element (st : parser_state_t) :
    parser_state_t × List LineC × List String :=
  let r := state_flush_pairs st
  (state_reset_block r.1, r.2, [])

/-- One iteration of clatlong.c `process_reader`. -/
def process_event (st : parser_state_t) (e : EvC) :
    parser_state_t × List LineC × List String :=
  match e with
  | EvC.blockEnd => handle_end_element st
  | EvC.otherEnd => (st, [], [])
  | e => handle_start_element st e

/-- clatlong.c `process_reader`: fold the events, accumulating stdout
and stderr. -/
def process_reader (st : parser_state_t) (evs : List EvC) :
    parser_state_t × List LineC × List String :=
  match evs with
  | [] => (st, [], [])
  | e :: rest =>
    let r1 := process_event st e
    let r2 := process_reader r1.1 rest
    (r2.1, r1.2.1 ++ r2.2.1, r1.2.2 ++ r2.2.2)

end CLatLong

/-- The unsigned post-increment of the pair counter iterated `m` times,
as performed by `m` successive prints of `flushLoop`. -/
def idxAdd (idx : Nat) : Nat → Nat
  | 0 => idx
  | m + 1 => idxAdd ((idx + 1) % U32) m

/-- The records `flushLoop` prints for a given list of matched pairs:
one per pair, sharing the site chosen at loop entry, with consecutive
(post-incremented) indices. -/
def recsFrom (site : String) (idx : Nat) : List (Int × Int) → List RecX
  | [] => []
  | (s, f) :: rest => ⟨idx, site, s, f⟩ :: recsFrom site ((idx + 1) % U32) rest

/-- The pair records among a list of stdout lines (raw side-channel
lines dropped). -/
def recsOfX (ls : List LineX) : List RecX :=
  ls.filterMap fun l => match l with
    | LineX.raw _ => none
    | LineX.record r => some r

/-- The (first value, second value) content of the records in a list of
stdout lines. -/
def pairsOfX (ls : List LineX) : List (Int × Int) :=
  (recsOfX ls).map fun r => (r.speed, r.flow)

/-- A default record, used only as the out-of-range fallback of
`List.getD`. -/
def dRec : RecX := ⟨0, "", 0, 0⟩

/-- Events that are successful pushes: a speed or vehicleFlowRate
element whose text parsed. -/
def Ev.isSuccPush : Ev → Bool
  | Ev.speed (some _) => true
  | Ev.flow (some _) => true
  | _ => false

/-- Events that stay within the current block (anything but a
block-start or block-end notification). -/
def Ev.inBlock : Ev → Bool
  | Ev.blockStart => false
  | Ev.blockEnd => false
  | _ => true

/-- Events that set the block label (a measurementSiteReference whose
"id" attribute was present). -/
def Ev.setsLabel : Ev → Bool
  | Ev.siteRef (some _) => true
  | _ => false

/-- A trace that stays within one block: no reset-inducing boundary
notifications. -/
def allInBlock (evs : List Ev) : Bool := evs.all Ev.inBlock

/-- The first-series (speed) values pushed by a trace, in order. -/
def speedVals (evs : List Ev) : List Int :=
  evs.filterMap fun e => match e with
    | Ev.speed (some v) => some v
    | _ => none

/-- The second-series (vehicleFlowRate) values pushed by a trace. -/
def flowVals (evs : List Ev) : List Int :=
  evs.filterMap fun e => match e with
    | Ev.flow (some v) => some v
    | _ => none

/-- How one event updates the cxml.c site label: a present "id"
attribute replaces it, everything else (including a
measurementSiteReference with a missing attribute) keeps it. -/
def updLabel (acc : Option String) (e : Ev) : Option String :=
  match e with
  | Ev.siteRef (some s) => some s
  | _ => acc

/-- The label last set by a trace (none when no event ever set one). -/
def lastLabelSet (evs : List Ev) : Option String :=
  evs.foldl updLabel none

/-- cxml.c `flush-then-reset`, the spec's description of a block
boundary: one more flush, then the block reset. -/
def CXml.flush_then_reset (st : CXml.parser_state_t) :
    CXml.parser_state_t × List LineX :=
  (CXml.state_reset_block (CXml.state_flush_pairs st).1,
   (CXml.state_flush_pairs st).2)

namespace CLatLong

/-- The pair records among clatlong.c stdout lines. -/
def recsOfC (ls : List LineC) : List RecC :=
  ls.filterMap fun l => match l with
    | LineC.raw _ => none
    | LineC.record r => some r

/-- Events that are push attempts with a parsed value. -/
def EvC.isPushC : EvC → Bool
  | EvC.lat (some _) => true
  | EvC.lon (some _) => true
  | _ => false

/-- Number of latitude push attempts (parsed values) in a trace. -/
def latCntC (evs : List EvC) : Nat :=
  (evs.filter fun e => match e with | EvC.lat (some _) => true | _ => false).length

/-- Number of longitude push attempts (parsed values) in a trace. -/
def lonCntC (evs : List EvC) : Nat :=
  (evs.filter fun e => match e with | EvC.lon (some _) => true | _ => false).length

/-- Well-formedness of a ring: indices in order and the backing array
of the declared size.  Holds for `dq_init` and is preserved by the
queue operations. -/
def InvQ (q : double_ring_t) : Prop :=
  q.start ≤ q.end_ ∧ q.data.length = MAX_PAIRS

/-- The engine invariant: both rings well-formed and at least one of
them empty (the flush pass after every successful push drains until one
side runs dry). -/
def InvS (st : parser_state_t) : Prop :=
  InvQ st.latitude ∧ InvQ st.longitude ∧
    (dq_size st.latitude = 0 ∨ dq_size st.longitude = 0)

/-- clatlong.c flush-then-reset, the spec's block-boundary behaviour
(stderr component empty: neither flush nor reset writes stderr). -/
def flush_then_resetC (st : parser_state_t) :
    parser_state_t × List LineC × List String :=
  (state_reset_block (state_flush_pairs st).1, (state_flush_pairs st).2, [])

end CLatLong

/-- An output field: a string field, a numeric value field, or the
1-based pair-index field.  Numeric rendering (%g / %ld) applies to the
opaque value tokens and is not refined further. -/
inductive OutField where
  | str (s : String)
  | num (v : Int)
  | index (n : Nat)
deriving DecidableEq, Repr

/-- The space-separated fields of one cxml.c / xmline.cpp record, in
print order: `printf("%u %s %g %ld\n", idx, site, speed, flow)`. -/
def fieldsOfRecX (r : RecX) : List OutField :=
  [OutField.index r.idx, OutField.str r.site, OutField.num r.speed, OutField.num r.flow]

/-- The space-separated fields of one clatlong.c record, in print
order: `printf("%s %s %g %g\n", site, date, lat, longi)`. -/
def fieldsOfRecC (r : CLatLong.RecC) : List OutField :=
  [OutField.str r.site, OutField.str r.date, OutField.num r.lat, OutField.num r.lon]

/-- Modelled from the spec: the record shape §6 prescribes for the
indexed variant — pair index, block label, first value, second value. -/
def specIndexedShape (fs : List OutField) : Prop :=
  ∃ n lab v1 v2, fs = [OutField.index n, OutField.str lab, OutField.num v1, OutField.num v2]

/-- Modelled from the spec: the record shape §6 prescribes for the
non-indexed variant — block label, first value, second value. -/
def specPlainShape (fs : List OutField) : Prop :=
  ∃ lab v1 v2, fs = [OutField.str lab, OutField.num v1, OutField.num v2]

/-- How one event updates the xmline.cpp site label: unlike cxml.c, the
handler stores `readAttribute`'s output unconditionally, and
readAttribute clears the string on a missing attribute — so a present
"id" replaces the label and a missing one clears it to empty. -/
def updLabelXm (acc : String) (e : Ev) : String :=
  match e with
  | Ev.siteRef (some s) => s
  | Ev.siteRef none => ""
  | _ => acc

/-- The xmline.cpp label after a trace (empty = unset). -/
def lastLabelXm (evs : List Ev) : String := evs.foldl updLabelXm ""

/-- The xmline.cpp sentinel substitution performed at flush time:
`siteId.empty() ? "(unknown_site)" : siteId.c_str()`. -/
def XmLine.siteOfXm (s : String) : String :=
  if s = "" then "(unknown_site)" else s

namespace CLatLong

/-- How one event updates the clatlong.c site string: a present "id"
attribute on measurementSiteRecord replaces it, a missing one clears it
(read_attribute writes an empty string on failure); everything else
keeps it. -/
def updSiteC (acc : String) (e : EvC) : String :=
  match e with
  | EvC.siteRec (some s) => s
  | EvC.siteRec none => ""
  | _ => acc

/-- How one event updates the clatlong.c date string
(measurementSiteRecordVersionTime element text, cleared on a failed
read). -/
def updDateC (acc : String) (e : EvC) : String :=
  match e with
  | EvC.versionTime (some s) => s
  | EvC.versionTime none => ""
  | _ => acc

/-- The clatlong.c site string after a trace (empty = unset). -/
def lastSiteC (evs : List EvC) : String := evs.foldl updSiteC ""

/-- The clatlong.c date string after a trace (empty = unset). -/
def lastDateC (evs : List EvC) : String := evs.foldl updDateC ""

/-- The sentinel substitution for the site field at flush time. -/
def siteOfC (s : String) : String := if s = "" then "(unknown_site)" else s

/-- The sentinel substitution for the date field at flush time. -/
def dateOfC (s : String) : String := if s = "" then "(unknown_date)" else s

/-- Events that stay within the current block. -/
def EvC.inBlockC : EvC → Bool
  | EvC.blockStart => false
  | EvC.blockEnd => false
  | _ => true

/-- A clatlong.c trace that stays within one block. -/
def allInBlockC (evs : List EvC) : Bool := evs.all EvC.inBlockC

/-- Events that set the clatlong.c site label (a measurementSiteRecord
whose "id" attribute was present). -/
def EvC.setsSiteC : EvC → Bool
  | EvC.siteRec (some _) => true
  | _ => false

/-- A default clatlong.c record, used only as the out-of-range fallback
of `List.getD`. -/
def dRecC : RecC := ⟨"", "", 0, 0⟩

end CLatLong

theorem idxAdd_zero (idx : Nat) : idxAdd idx 0 = idx := rfl

theorem idxAdd_succ (idx m : Nat) :
    idxAdd idx (m + 1) = idxAdd ((idx + 1) % U32) m := rfl

/-- Closed form of the shared pairing loop: it prints one record per
matched pair (`zip` of the two queues), drops exactly those elements
from each queue, and advances the counter once per record. -/
theorem flushLoop_eq (site : String) : ∀ (sp fl : List Int) (idx : Nat),
    flushLoop site idx sp fl =
      (idxAdd idx (sp.zip fl).length, sp.drop (sp.zip fl).length,
       fl.drop (sp.zip fl).length,
       (recsFrom site idx (sp.zip fl)).map LineX.record)
  | [], fl, idx => by simp [flushLoop, recsFrom, idxAdd]
  | s :: sps, [], idx => by simp [flushLoop, recsFrom, idxAdd]
  | s :: sps, f :: fls, idx => by
    rw [flushLoop]
    simp [recsFrom, idxAdd_succ, List.zip, flushLoop_eq site sps fls]

theorem recsOfX_append (a b : List LineX) :
    recsOfX (a ++ b) = recsOfX a ++ recsOfX b := by
  simp [recsOfX, List.filterMap_append]

theorem recsOfX_map_record (rs : List RecX) :
    recsOfX (rs.map LineX.record) = rs := by
  induction rs with
  | nil => rfl
  | cons r rest ih => simp [recsOfX] at ih ⊢; exact ih

theorem pairsOfX_append (a b : List LineX) :
    pairsOfX (a ++ b) = pairsOfX a ++ pairsOfX b := by
  simp [pairsOfX, recsOfX_append]

theorem recsFrom_pairs (site : String) : ∀ (ps : List (Int × Int)) (idx : Nat),
    (recsFrom site idx ps).map (fun r => (r.speed, r.flow)) = ps
  | [], idx => rfl
  | (s, f) :: rest, idx => by
    simp [recsFrom, recsFrom_pairs site rest]

theorem recsFrom_length (site : String) : ∀ (ps : List (Int × Int)) (idx : Nat),
    (recsFrom site idx ps).length = ps.length
  | [], idx => rfl
  | (s, f) :: rest, idx => by
    simp [recsFrom, recsFrom_length site rest]

theorem recsFrom_site (site : String) : ∀ (ps : List (Int × Int)) (idx : Nat),
    ∀ r ∈ recsFrom site idx ps, r.site = site
  | [], idx => by simp [recsFrom]
  | (s, f) :: rest, idx => by
    simp only [recsFrom, List.mem_cons]
    rintro r (rfl | hr)
    · rfl
    · exact recsFrom_site site rest _ r hr

theorem cx_run_cons (st : CXml.parser_state_t) (e : Ev) (rest : List Ev) :
    CXml.process_reader st (e :: rest) =
      ((CXml.process_reader (CXml.process_event st e).1 rest).1,
       (CXml.process_event st e).2 ++
         (CXml.process_reader (CXml.process_event st e).1 rest).2) := rfl

theorem cx_step_speed (st : CXml.parser_state_t) (v : Int) :
    CXml.process_event st (Ev.speed (some v)) =
      CXml.state_flush_pairs { st with speeds := st.speeds ++ [v] } := rfl

theorem cx_step_flow (st : CXml.parser_state_t) (v : Int) :
    CXml.process_event st (Ev.flow (some v)) =
      CXml.state_flush_pairs { st with flows := st.flows ++ [v] } := rfl

/-- cxml.c `state_flush_pairs` in closed form. -/
theorem cx_flush_eq (st : CXml.parser_state_t) :
    CXml.state_flush_pairs st =
      ({ st with
         idx := idxAdd st.idx (st.speeds.zip st.flows).length
         speeds := st.speeds.drop (st.speeds.zip st.flows).length
         flows := st.flows.drop (st.speeds.zip st.flows).length },
       (recsFrom (CXml.siteOf st.site_id) st.idx
         (st.speeds.zip st.flows)).map LineX.record) := by
  simp [CXml.state_flush_pairs, flushLoop_eq]

/-- Trace-level pairing lemma for cxml.c: starting from a state in which
at least one queue is empty, a trace of successful pushes emits exactly
the zip of the two (old ++ newly pushed) value streams, and leaves the
un-zipped tails in the queues. -/
theorem cx_run_pushes (evs : List Ev) : ∀ (st : CXml.parser_state_t),
    (∀ e ∈ evs, e.isSuccPush = true) →
    (st.speeds = [] ∨ st.flows = []) →
    pairsOfX (CXml.process_reader st evs).2 =
        (st.speeds ++ speedVals evs).zip (st.flows ++ flowVals evs) ∧
    (CXml.process_reader st evs).1.speeds =
        (st.speeds ++ speedVals evs).drop
          (((st.speeds ++ speedVals evs).zip (st.flows ++ flowVals evs)).length) ∧
    (CXml.process_reader st evs).1.flows =
        (st.flows ++ flowVals evs).drop
          (((st.speeds ++ speedVals evs).zip (st.flows ++ flowVals evs)).length) := by
  induction evs with
  | nil =>
    intro st _ hflushed
    rcases hflushed with h | h <;>
      simp [CXml.process_reader, pairsOfX, recsOfX, speedVals, flowVals, h]
  | cons e rest ih =>
    intro st hpush hflushed
    have he : e.isSuccPush = true := hpush e (by simp)
    have hrest : ∀ x ∈ rest, x.isSuccPush = true :=
      fun x hx => hpush x (by simp [hx])
    cases e with
    | pubTime t => simp [Ev.isSuccPush] at he
    | blockStart => simp [Ev.isSuccPush] at he
    | siteRef a => simp [Ev.isSuccPush] at he
    | otherStart => simp [Ev.isSuccPush] at he
    | blockEnd => simp [Ev.isSuccPush] at he
    | otherEnd => simp [Ev.isSuccPush] at he
    | speed p =>
      cases p with
      | none => simp [Ev.isSuccPush] at he
      | some v =>
        rw [cx_run_cons, cx_step_speed, cx_flush_eq]
        cases hfl2 : st.flows with
        | nil =>
          have key := ih { st with speeds := st.speeds ++ [v] } hrest
            (by right; simpa using hfl2)
          simp only [hfl2] at key ⊢
          simpa [pairsOfX_append, pairsOfX, recsOfX, recsFrom, speedVals,
            flowVals, List.zip] using key
        | cons f fls =>
          have hsp : st.speeds = [] := by
            rcases hflushed with h | h
            · exact h
            · rw [hfl2] at h; simp at h
          have key := ih { st with
              idx := idxAdd st.idx 1
              speeds := []
              flows := fls } hrest (by left; rfl)
          simp only [hsp, hfl2] at key ⊢
          simpa [pairsOfX_append, pairsOfX, recsOfX, recsFrom, speedVals,
            flowVals, List.zip] using key
    | flow p =>
      cases p with
      | none => simp [Ev.isSuccPush] at he
      | some v =>
        rw [cx_run_cons, cx_step_flow, cx_flush_eq]
        cases hsp2 : st.speeds with
        | nil =>
          have key := ih { st with flows := st.flows ++ [v] } hrest
            (by left; simpa using hsp2)
          simp only [hsp2] at key ⊢
          simpa [pairsOfX_append, pairsOfX, recsOfX, recsFrom, speedVals,
            flowVals, List.zip] using key
        | cons s sps =>
          have hfl : st.flows = [] := by
            rcases hflushed with h | h
            · rw [hsp2] at h; simp at h
            · exact h
          have key := ih { st with
              idx := idxAdd st.idx 1
              speeds := sps
              flows := [] } hrest (by right; rfl)
          simp only [hsp2, hfl] at key ⊢
          simpa [pairsOfX_append, pairsOfX, recsOfX, recsFrom, speedVals,
            flowVals, List.zip] using key

theorem xm_run_cons (st : XmLine.ParserState) (e : Ev) (rest : List Ev) :
    XmLine.processReader st (e :: rest) =
      ((XmLine.processReader (XmLine.processEvent st e).1 rest).1,
       (XmLine.processEvent st e).2 ++
         (XmLine.processReader (XmLine.processEvent st e).1 rest).2) := rfl

theorem xm_step_speed (st : XmLine.ParserState) (v : Int) :
    XmLine.processEvent st (Ev.speed (some v)) =
      XmLine.flushPairs { st with speeds := st.speeds ++ [v] } := rfl

theorem xm_step_flow (st : XmLine.ParserState) (v : Int) :
    XmLine.processEvent st (Ev.flow (some v)) =
      XmLine.flushPairs { st with flows := st.flows ++ [v] } := rfl

/-- xmline.cpp `ParserState::flushPairs` in closed form. -/
theorem xm_flush_eq (st : XmLine.ParserState) :
    XmLine.flushPairs st =
      ({ st with
         idx := idxAdd st.idx (st.speeds.zip st.flows).length
         speeds := st.speeds.drop (st.speeds.zip st.flows).length
         flows := st.flows.drop (st.speeds.zip st.flows).length },
       (recsFrom (if st.siteId = "" then "(unknown_site)" else st.siteId)
         st.idx (st.speeds.zip st.flows)).map LineX.record) := by
  simp [XmLine.flushPairs, flushLoop_eq]

/-- Trace-level pairing lemma for xmline.cpp, identical in content to
`cx_run_pushes`. -/
theorem xm_run_pushes (evs : List Ev) : ∀ (st : XmLine.ParserState),
    (∀ e ∈ evs, e.isSuccPush = true) →
    (st.speeds = [] ∨ st.flows = []) →
    pairsOfX (XmLine.processReader st evs).2 =
        (st.speeds ++ speedVals evs).zip (st.flows ++ flowVals evs) ∧
    (XmLine.processReader st evs).1.speeds =
        (st.speeds ++ speedVals evs).drop
          (((st.speeds ++ speedVals evs).zip (st.flows ++ flowVals evs)).length) ∧
    (XmLine.processReader st evs).1.flows =
        (st.flows ++ flowVals evs).drop
          (((st.speeds ++ speedVals evs).zip (st.flows ++ flowVals evs)).length) := by
  induction evs with
  | nil =>
    intro st _ hflushed
    rcases hflushed with h | h <;>
      simp [XmLine.processReader, pairsOfX, recsOfX, speedVals, flowVals, h]
  | cons e rest ih =>
    intro st hpush hflushed
    have he : e.isSuccPush = true := hpush e (by simp)
    have hrest : ∀ x ∈ rest, x.isSuccPush = true :=
      fun x hx => hpush x (by simp [hx])
    cases e with
    | pubTime t => simp [Ev.isSuccPush] at he
    | blockStart => simp [Ev.isSuccPush] at he
    | siteRef a => simp [Ev.isSuccPush] at he
    | otherStart => simp [Ev.isSuccPush] at he
    | blockEnd => simp [Ev.isSuccPush] at he
    | otherEnd => simp [Ev.isSuccPush] at he
    | speed p =>
      cases p with
      | none => simp [Ev.isSuccPush] at he
      | some v =>
        rw [xm_run_cons, xm_step_speed, xm_flush_eq]
        cases hfl2 : st.flows with
        | nil =>
          have key := ih { st with speeds := st.speeds ++ [v] } hrest
            (by right; simpa using hfl2)
          simp only [hfl2] at key ⊢
          simpa [pairsOfX_append, pairsOfX, recsOfX, recsFrom, speedVals,
            flowVals, List.zip] using key
        | cons f fls =>
          have hsp : st.speeds = [] := by
            rcases hflushed with h | h
            · exact h
            · rw [hfl2] at h; simp at h
          have key := ih { st with
              idx := idxAdd st.idx 1
              speeds := []
              flows := fls } hrest (by left; rfl)
          simp only [hsp, hfl2] at key ⊢
          simpa [pairsOfX_append, pairsOfX, recsOfX, recsFrom, speedVals,
            flowVals, List.zip] using key
    | flow p =>
      cases p with
      | none => simp [Ev.isSuccPush] at he
      | some v =>
        rw [xm_run_cons, xm_step_flow, xm_flush_eq]
        cases hsp2 : st.speeds with
        | nil =>
          have key := ih { st with flows := st.flows ++ [v] } hrest
            (by left; simpa using hsp2)
          simp only [hsp2] at key ⊢
          simpa [pairsOfX_append, pairsOfX, recsOfX, recsFrom, speedVals,
            flowVals, List.zip] using key
        | cons s sps =>
          have hfl : st.flows = [] := by
            rcases hflushed with h | h
            · rw [hsp2] at h; simp at h
            · exact h
          have key := ih { st with
              idx := idxAdd st.idx 1
              speeds := sps
              flows := [] } hrest (by right; rfl)
          simp only [hsp2, hfl] at key ⊢
          simpa [pairsOfX_append, pairsOfX, recsOfX, recsFrom, speedVals,
            flowVals, List.zip] using key

theorem dq_pop_ok (q : CLatLong.double_ring_t)
    (h : 0 < CLatLong.dq_size q) :
    ((CLatLong.dq_pop_front q).2).isSome = true ∧
    CLatLong.dq_size (CLatLong.dq_pop_front q).1 = CLatLong.dq_size q - 1 ∧
    (CLatLong.dq_pop_front q).1.data = q.data ∧
    (CLatLong.dq_pop_front q).1.start ≤ (CLatLong.dq_pop_front q).1.end_ := by
  have hlt : q.start < q.end_ := by
    simp only [CLatLong.dq_size] at h
    split_ifs at h <;> omega
  have hsz : ¬ CLatLong.dq_size q = 0 := by omega
  simp only [CLatLong.dq_pop_front, if_neg hsz]
  split_ifs with he
  · simp only [CLatLong.dq_size] at *
    split_ifs at * <;> simp_all <;> omega
  · simp only [CLatLong.dq_size] at *
    split_ifs at * <;> simp_all <;> omega

theorem dq_push_full (q : CLatLong.double_ring_t) (v : Int)
    (h : CLatLong.dq_size q ≥ CLatLong.MAX_PAIRS) :
    CLatLong.dq_push_back q v = (q, false) := by
  simp [CLatLong.dq_push_back, if_pos h]

theorem dq_push_ok (q : CLatLong.double_ring_t) (v : Int)
    (hle : q.start ≤ q.end_)
    (h : CLatLong.dq_size q < CLatLong.MAX_PAIRS) :
    (CLatLong.dq_push_back q v).2 = true ∧
    CLatLong.dq_size (CLatLong.dq_push_back q v).1 =
      CLatLong.dq_size q + 1 ∧
    (CLatLong.dq_push_back q v).1.start ≤ (CLatLong.dq_push_back q v).1.end_ ∧
    (CLatLong.dq_push_back q v).1.data.length = q.data.length := by
  have hn : ¬ CLatLong.dq_size q ≥ CLatLong.MAX_PAIRS := by omega
  have hq : CLatLong.dq_push_back q v =
      (⟨q.data.set q.end_ v, q.start, q.end_ + 1⟩, true) := by
    simp only [CLatLong.dq_push_back, if_neg hn]
  rw [hq]
  refine ⟨rfl, ?_, ?_, ?_⟩
  · show CLatLong.dq_size ⟨q.data.set q.end_ v, q.start, q.end_ + 1⟩ =
      CLatLong.dq_size q + 1
    simp only [CLatLong.dq_size]
    split_ifs <;> omega
  · show q.start ≤ q.end_ + 1
    omega
  · show (q.data.set q.end_ v).length = q.data.length
    simp

/-- Closed characterisation of the clatlong.c pairing loop: with enough
fuel it prints min(size, size) records (all of them pair records),
shrinks each ring by that amount, and never touches the backing
arrays. -/
theorem flushLoopF_spec : ∀ (n : Nat) (lat lon : CLatLong.double_ring_t)
    (site date : String),
    CLatLong.dq_size lat ≤ n →
    lat.start ≤ lat.end_ → lon.start ≤ lon.end_ →
    (CLatLong.flushLoopF site date n lat lon).2.2.length =
        min (CLatLong.dq_size lat) (CLatLong.dq_size lon) ∧
    CLatLong.dq_size (CLatLong.flushLoopF site date n lat lon).1 =
        CLatLong.dq_size lat -
          min (CLatLong.dq_size lat) (CLatLong.dq_size lon) ∧
    CLatLong.dq_size (CLatLong.flushLoopF site date n lat lon).2.1 =
        CLatLong.dq_size lon -
          min (CLatLong.dq_size lat) (CLatLong.dq_size lon) ∧
    (CLatLong.flushLoopF site date n lat lon).1.data = lat.data ∧
    (CLatLong.flushLoopF site date n lat lon).2.1.data = lon.data ∧
    (CLatLong.flushLoopF site date n lat lon).1.start ≤
        (CLatLong.flushLoopF site date n lat lon).1.end_ ∧
    (CLatLong.flushLoopF site date n lat lon).2.1.start ≤
        (CLatLong.flushLoopF site date n lat lon).2.1.end_ ∧
    (CLatLong.recsOfC (CLatLong.flushLoopF site date n lat lon).2.2).length =
        (CLatLong.flushLoopF site date n lat lon).2.2.length := by
  intro n
  induction n with
  | zero =>
    intro lat lon site date hn hle1 hle2
    have h0 : CLatLong.dq_size lat = 0 := by omega
    simp [CLatLong.flushLoopF, CLatLong.recsOfC, h0, hle1, hle2]
  | succ n ih =>
    intro lat lon site date hn hle1 hle2
    show (CLatLong.flushLoopF site date (n + 1) lat lon).2.2.length = _ ∧ _
    simp only [CLatLong.flushLoopF]
    split_ifs with hc
    · obtain ⟨hla, hlo⟩ := hc
      rcases hp1 : CLatLong.dq_pop_front lat with ⟨lat1, ov1⟩
      rcases hp2 : CLatLong.dq_pop_front lon with ⟨lon1, ov2⟩
      have h1 := dq_pop_ok lat hla
      have h2 := dq_pop_ok lon hlo
      rw [hp1] at h1
      rw [hp2] at h2
      obtain ⟨hs1, hz1, hd1, hw1⟩ := h1
      obtain ⟨hs2, hz2, hd2, hw2⟩ := h2
      simp only at hs1 hz1 hd1 hw1 hs2 hz2 hd2 hw2
      cases ov1 with
      | none => simp at hs1
      | some la =>
        cases ov2 with
        | none => simp at hs2
        | some lo =>
          simp only []
          have hrec := ih lat1 lon1 site date (by omega) hw1 hw2
          rw [hz1, hz2] at hrec
          obtain ⟨r1, r2, r3, r4, r5, r6, r7, r8⟩ := hrec
          refine ⟨?_, ?_, ?_, ?_, ?_, ?_, ?_, ?_⟩
          · simp only [List.length_cons, r1]; omega
          · simp only [r2]; omega
          · simp only [r3]; omega
          · rw [r4, hd1]
          · rw [r5, hd2]
          · exact r6
          · exact r7
          · simp only [CLatLong.recsOfC, List.filterMap_cons] at r8 ⊢
            simp only [List.length_cons, r8]
    · have h0 : CLatLong.dq_size lat = 0 ∨ CLatLong.dq_size lon = 0 := by
        omega
      rcases h0 with h | h <;> simp [CLatLong.recsOfC, h, hle1, hle2]


/-- The cxml.c flush always leaves at least one queue empty. -/
theorem cx_flush_minzero (st : CXml.parser_state_t) :
    (CXml.state_flush_pairs st).1.speeds = [] ∨
    (CXml.state_flush_pairs st).1.flows = [] := by
  rw [cx_flush_eq]
  rcases Nat.le_total st.speeds.length st.flows.length with h | h
  · left
    apply List.drop_eq_nil_of_le
    simp only [List.length_zip]
    omega
  · right
    apply List.drop_eq_nil_of_le
    simp only [List.length_zip]
    omega

/-- Flushing a state in which one queue is already empty does nothing:
no line is printed and the state is unchanged. -/
theorem cx_flush_nil (st : CXml.parser_state_t)
    (h : st.speeds = [] ∨ st.flows = []) :
    CXml.state_flush_pairs st = (st, []) := by
  obtain ⟨si, sp, fl, ix⟩ := st
  rw [cx_flush_eq]
  rcases h with h | h <;> simp only at h <;> subst h <;>
    simp [recsFrom, List.zip, idxAdd]

/-- Every dispatcher step of cxml.c restores the one-queue-empty
invariant. -/
theorem cx_step_minzero (st : CXml.parser_state_t) (e : Ev)
    (h : st.speeds = [] ∨ st.flows = []) :
    (CXml.process_event st e).1.speeds = [] ∨
    (CXml.process_event st e).1.flows = [] := by
  cases e with
  | pubTime t =>
    cases t <;> simpa [CXml.process_event, CXml.handle_start_element] using h
  | blockStart =>
    left
    simp [CXml.process_event, CXml.handle_start_element, CXml.state_reset_block]
  | siteRef a =>
    cases a <;> simpa [CXml.process_event, CXml.handle_start_element] using h
  | speed p =>
    cases p with
    | none => simpa [CXml.process_event, CXml.handle_start_element] using h
    | some v =>
      have hz := cx_flush_minzero { st with speeds := st.speeds ++ [v] }
      simpa [CXml.process_event, CXml.handle_start_element] using hz
  | flow p =>
    cases p with
    | none => simpa [CXml.process_event, CXml.handle_start_element] using h
    | some v =>
      have hz := cx_flush_minzero { st with flows := st.flows ++ [v] }
      simpa [CXml.process_event, CXml.handle_start_element] using hz
  | otherStart => simpa [CXml.process_event, CXml.handle_start_element] using h
  | blockEnd =>
    left
    simp [CXml.process_event, CXml.handle_end_element, CXml.state_reset_block]
  | otherEnd => simpa [CXml.process_event] using h

theorem cx_run_minzero_from (evs : List Ev) : ∀ (st : CXml.parser_state_t),
    (st.speeds = [] ∨ st.flows = []) →
    ((CXml.process_reader st evs).1.speeds = [] ∨
     (CXml.process_reader st evs).1.flows = []) := by
  induction evs with
  | nil => intro st h; simpa [CXml.process_reader] using h
  | cons e rest ih =>
    intro st h
    rw [cx_run_cons]
    exact ih _ (cx_step_minzero st e h)

/-- After any trace from the initial state, at least one cxml.c queue
is empty. -/
theorem cx_run_minzero (evs : List Ev) :
    (CXml.process_reader CXml.state_init evs).1.speeds = [] ∨
    (CXml.process_reader CXml.state_init evs).1.flows = [] :=
  cx_run_minzero_from evs CXml.state_init (Or.inl rfl)

theorem clat_run_cons (st : CLatLong.parser_state_t) (e : CLatLong.EvC)
    (rest : List CLatLong.EvC) :
    CLatLong.process_reader st (e :: rest) =
      ((CLatLong.process_reader (CLatLong.process_event st e).1 rest).1,
       (CLatLong.process_event st e).2.1 ++
         (CLatLong.process_reader (CLatLong.process_event st e).1 rest).2.1,
       (CLatLong.process_event st e).2.2 ++
         (CLatLong.process_reader (CLatLong.process_event st e).1 rest).2.2) :=
  rfl

/-- State-level form of the clatlong.c flush: record counts, ring sizes,
untouched arrays, untouched strings. -/
theorem clat_flush_spec (st : CLatLong.parser_state_t)
    (hle1 : st.latitude.start ≤ st.latitude.end_)
    (hle2 : st.longitude.start ≤ st.longitude.end_) :
    (CLatLong.state_flush_pairs st).2.length =
        min (CLatLong.dq_size st.latitude) (CLatLong.dq_size st.longitude) ∧
    CLatLong.dq_size (CLatLong.state_flush_pairs st).1.latitude =
        CLatLong.dq_size st.latitude -
          min (CLatLong.dq_size st.latitude) (CLatLong.dq_size st.longitude) ∧
    CLatLong.dq_size (CLatLong.state_flush_pairs st).1.longitude =
        CLatLong.dq_size st.longitude -
          min (CLatLong.dq_size st.latitude) (CLatLong.dq_size st.longitude) ∧
    (CLatLong.state_flush_pairs st).1.latitude.data = st.latitude.data ∧
    (CLatLong.state_flush_pairs st).1.longitude.data = st.longitude.data ∧
    (CLatLong.state_flush_pairs st).1.latitude.start ≤
        (CLatLong.state_flush_pairs st).1.latitude.end_ ∧
    (CLatLong.state_flush_pairs st).1.longitude.start ≤
        (CLatLong.state_flush_pairs st).1.longitude.end_ ∧
    (CLatLong.recsOfC (CLatLong.state_flush_pairs st).2).length =
        (CLatLong.state_flush_pairs st).2.length ∧
    (CLatLong.state_flush_pairs st).1.site_id = st.site_id ∧
    (CLatLong.state_flush_pairs st).1.date = st.date := by
  have hs := flushLoopF_spec (CLatLong.dq_size st.latitude)
    st.latitude st.longitude
    (if st.site_id = "" then "(unknown_site)" else st.site_id)
    (if st.date = "" then "(unknown_date)" else st.date)
    (le_refl _) hle1 hle2
  obtain ⟨r1, r2, r3, r4, r5, r6, r7, r8⟩ := hs
  exact ⟨r1, r2, r3, r4, r5, r6, r7, r8, rfl, rfl⟩

/-- Flushing with one empty ring prints nothing and changes nothing. -/
theorem clat_flush_nil (st : CLatLong.parser_state_t)
    (h : CLatLong.dq_size st.latitude = 0 ∨
         CLatLong.dq_size st.longitude = 0) :
    CLatLong.state_flush_pairs st = (st, []) := by
  have hc : ¬ (CLatLong.dq_size st.latitude > 0 ∧
      CLatLong.dq_size st.longitude > 0) := by omega
  obtain ⟨si, da, qa, qb⟩ := st
  have hc2 : ¬ (CLatLong.dq_size qa > 0 ∧ CLatLong.dq_size qb > 0) := by
    simpa using hc
  simp only [CLatLong.state_flush_pairs, CLatLong.flushLoopC]
  cases hq : CLatLong.dq_size qa with
  | zero => rfl
  | succ n => simp only [CLatLong.flushLoopF, if_neg hc2]

/-- Every dispatcher step of clatlong.c preserves the engine
invariant. -/
theorem clat_step_inv (st : CLatLong.parser_state_t) (e : CLatLong.EvC)
    (h : CLatLong.InvS st) : CLatLong.InvS (CLatLong.process_event st e).1 := by
  obtain ⟨⟨hw1, hl1⟩, ⟨hw2, hl2⟩, hmin⟩ := h
  cases e with
  | pubTime t =>
    cases t <;>
      exact ⟨⟨hw1, hl1⟩, ⟨hw2, hl2⟩, hmin⟩
  | blockStart =>
    refine ⟨⟨Nat.le_refl 0, hl1⟩, ⟨Nat.le_refl 0, hl2⟩, ?_⟩
    left
    simp [CLatLong.process_event, CLatLong.handle_start_element,
      CLatLong.state_reset_block, CLatLong.dq_size]
  | siteRec a =>
    cases a <;> exact ⟨⟨hw1, hl1⟩, ⟨hw2, hl2⟩, hmin⟩
  | versionTime t =>
    cases t <;> exact ⟨⟨hw1, hl1⟩, ⟨hw2, hl2⟩, hmin⟩
  | lat p =>
    cases p with
    | none => exact ⟨⟨hw1, hl1⟩, ⟨hw2, hl2⟩, hmin⟩
    | some v =>
      show CLatLong.InvS (CLatLong.h_latitude st (some v)).1
      by_cases hfull : CLatLong.dq_size st.latitude ≥ CLatLong.MAX_PAIRS
      · simp only [CLatLong.h_latitude, dq_push_full st.latitude v hfull]
        exact ⟨⟨hw1, hl1⟩, ⟨hw2, hl2⟩, hmin⟩
      · have hlt : CLatLong.dq_size st.latitude < CLatLong.MAX_PAIRS := by
          omega
        obtain ⟨hb, hsz, hwf, hlen⟩ := dq_push_ok st.latitude v hw1 hlt
        simp only [CLatLong.h_latitude, hb, if_pos]
        set st1 : CLatLong.parser_state_t :=
          { st with latitude := (CLatLong.dq_push_back st.latitude v).1 }
          with hst1
        have hfs := clat_flush_spec st1 (by simpa [hst1] using hwf)
          (by simpa [hst1] using hw2)
        obtain ⟨r1, r2, r3, r4, r5, r6, r7, r8, r9, r10⟩ := hfs
        refine ⟨⟨r6, ?_⟩, ⟨r7, ?_⟩, ?_⟩
        · rw [r4]
          simp only [hst1]
          rw [hlen]
          exact hl1
        · rw [r5]
          simpa [hst1] using hl2
        · rw [r2, r3]
          simp only [hst1]
          omega
  | lon p =>
    cases p with
    | none => exact ⟨⟨hw1, hl1⟩, ⟨hw2, hl2⟩, hmin⟩
    | some v =>
      show CLatLong.InvS (CLatLong.h_longitude st (some v)).1
      by_cases hfull : CLatLong.dq_size st.longitude ≥ CLatLong.MAX_PAIRS
      · simp only [CLatLong.h_longitude, dq_push_full st.longitude v hfull]
        exact ⟨⟨hw1, hl1⟩, ⟨hw2, hl2⟩, hmin⟩
      · have hlt : CLatLong.dq_size st.longitude < CLatLong.MAX_PAIRS := by
          omega
        obtain ⟨hb, hsz, hwf, hlen⟩ := dq_push_ok st.longitude v hw2 hlt
        simp only [CLatLong.h_longitude, hb, if_pos]
        set st1 : CLatLong.parser_state_t :=
          { st with longitude := (CLatLong.dq_push_back st.longitude v).1 }
          with hst1
        have hfs := clat_flush_spec st1 (by simpa [hst1] using hw1)
          (by simpa [hst1] using hwf)
        obtain ⟨r1, r2, r3, r4, r5, r6, r7, r8, r9, r10⟩ := hfs
        refine ⟨⟨r6, ?_⟩, ⟨r7, ?_⟩, ?_⟩
        · rw [r4]
          simpa [hst1] using hl1
        · rw [r5]
          simp only [hst1]
          rw [hlen]
          exact hl2
        · rw [r2, r3]
          simp only [hst1]
          omega
  | otherStart => exact ⟨⟨hw1, hl1⟩, ⟨hw2, hl2⟩, hmin⟩
  | blockEnd =>
    have hfs := clat_flush_spec st hw1 hw2
    obtain ⟨r1, r2, r3, r4, r5, r6, r7, r8, r9, r10⟩ := hfs
    refine ⟨⟨Nat.le_refl 0, ?_⟩, ⟨Nat.le_refl 0, ?_⟩, ?_⟩
    · show ((CLatLong.state_flush_pairs st).1.latitude.data).length =
        CLatLong.MAX_PAIRS
      rw [r4]; exact hl1
    · show ((CLatLong.state_flush_pairs st).1.longitude.data).length =
        CLatLong.MAX_PAIRS
      rw [r5]; exact hl2
    · left
      simp [CLatLong.process_event, CLatLong.handle_end_element,
        CLatLong.state_reset_block, CLatLong.dq_size]
  | otherEnd => exact ⟨⟨hw1, hl1⟩, ⟨hw2, hl2⟩, hmin⟩

theorem clat_init_inv : CLatLong.InvS CLatLong.state_init := by
  refine ⟨⟨Nat.le_refl 0, by simp [CLatLong.state_init, CLatLong.dq_init]⟩,
    ⟨Nat.le_refl 0, by simp [CLatLong.state_init, CLatLong.dq_init]⟩, ?_⟩
  left
  rfl

theorem clat_run_inv_from (evs : List CLatLong.EvC) :
    ∀ (st : CLatLong.parser_state_t), CLatLong.InvS st →
    CLatLong.InvS (CLatLong.process_reader st evs).1 := by
  induction evs with
  | nil => intro st h; exact h
  | cons e rest ih =>
    intro st h
    rw [clat_run_cons]
    exact ih _ (clat_step_inv st e h)

/-- After any trace from the initial state, the clatlong.c engine
invariant holds; in particular at least one ring is empty. -/
theorem clat_run_inv (evs : List CLatLong.EvC) :
    CLatLong.InvS (CLatLong.process_reader CLatLong.state_init evs).1 :=
  clat_run_inv_from evs CLatLong.state_init clat_init_inv

/-- C5: after the dispatcher finishes handling any single notification
(equivalently, after any trace of notifications from the initial state),
at least one of the two series queues is empty — the pairing+flush pass
run after every successful push drains until one queue is empty, and
failed pushes add nothing.  Stated for both the clatlong.c rings and the
cxml.c dynamic queues. -/
theorem c5_min_queue_empty (evs : List CLatLong.EvC) (evsX : List Ev) :
    min (CLatLong.dq_size
          (CLatLong.process_reader CLatLong.state_init evs).1.latitude)
        (CLatLong.dq_size
          (CLatLong.process_reader CLatLong.state_init evs).1.longitude) = 0 ∧
    min (CXml.process_reader CXml.state_init evsX).1.speeds.length
        (CXml.process_reader CXml.state_init evsX).1.flows.length = 0 := by
  constructor
  · have h := (clat_run_inv evs).2.2
    omega
  · rcases cx_run_minzero evsX with h | h <;> simp [h]

/-- C4: handling a block boundary is observably flush-then-reset.  For
an end-of-block notification this is the literal code path; for a new
block-start notification (which only resets) the equality holds on every
reachable state because the invariant makes that extra flush print
nothing and leave the state unchanged.  Stated for cxml.c and
clatlong.c. -/
theorem c4_block_boundary (evsX : List Ev) (evs : List CLatLong.EvC) :
    CXml.process_event (CXml.process_reader CXml.state_init evsX).1
        Ev.blockEnd =
      CXml.flush_then_reset (CXml.process_reader CXml.state_init evsX).1 ∧
    CXml.process_event (CXml.process_reader CXml.state_init evsX).1
        Ev.blockStart =
      CXml.flush_then_reset (CXml.process_reader CXml.state_init evsX).1 ∧
    CLatLong.process_event (CLatLong.process_reader CLatLong.state_init evs).1
        CLatLong.EvC.blockEnd =
      CLatLong.flush_then_resetC
        (CLatLong.process_reader CLatLong.state_init evs).1 ∧
    CLatLong.process_event (CLatLong.process_reader CLatLong.state_init evs).1
        CLatLong.EvC.blockStart =
      CLatLong.flush_then_resetC
        (CLatLong.process_reader CLatLong.state_init evs).1 := by
  refine ⟨rfl, ?_, rfl, ?_⟩
  · have h := cx_flush_nil _ (cx_run_minzero evsX)
    simp [CXml.process_event, CXml.handle_start_element,
      CXml.flush_then_reset, h]
  · have h := clat_flush_nil _ (clat_run_inv evs).2.2
    simp [CLatLong.process_event, CLatLong.handle_start_element,
      CLatLong.flush_then_resetC, h]

/-- C10: block reset is total and idempotent in both representative
variants — resetting an already-reset (or any) block equals a single
reset — and it clears the label(s), both queues and the pair counter to
their defaults. -/
theorem c10_reset_idempotent (stX : CXml.parser_state_t)
    (stC : CLatLong.parser_state_t) :
    CXml.state_reset_block (CXml.state_reset_block stX) =
        CXml.state_reset_block stX ∧
    (CXml.state_reset_block stX).site_id = none ∧
    (CXml.state_reset_block stX).speeds = [] ∧
    (CXml.state_reset_block stX).flows = [] ∧
    (CXml.state_reset_block stX).idx = 1 ∧
    CLatLong.state_reset_block (CLatLong.state_reset_block stC) =
        CLatLong.state_reset_block stC ∧
    (CLatLong.state_reset_block stC).site_id = "" ∧
    (CLatLong.state_reset_block stC).date = "" ∧
    CLatLong.dq_size (CLatLong.state_reset_block stC).latitude = 0 ∧
    CLatLong.dq_size (CLatLong.state_reset_block stC).longitude = 0 :=
  ⟨rfl, rfl, rfl, rfl, rfl, rfl, rfl, rfl, rfl, rfl⟩

/-- C6: a push onto a full bounded ring returns the failure flag and
leaves the ring (contents, indices, size) unchanged; the calling handler
reports the drop on stderr, emits nothing, leaves the whole engine state
unchanged and continues. -/
theorem c6_overflow_push (q : CLatLong.double_ring_t) (v : Int)
    (st : CLatLong.parser_state_t)
    (hfull : CLatLong.dq_size q = CLatLong.MAX_PAIRS)
    (hq : st.latitude = q) :
    CLatLong.dq_push_back q v = (q, false) ∧
    CLatLong.process_event st (CLatLong.EvC.lat (some v)) =
      (st, [], [CLatLong.latFullMsg]) := by
  have hp : CLatLong.dq_push_back q v = (q, false) :=
    dq_push_full q v (by omega)
  refine ⟨hp, ?_⟩
  obtain ⟨si, da, qa, qb⟩ := st
  simp only at hq
  subst hq
  simp [CLatLong.process_event, CLatLong.handle_start_element,
    CLatLong.h_latitude, hp]

/-- Witness for C6 at a concrete full ring. -/
theorem c6_overflow_push_witness :
    CLatLong.dq_push_back ⟨List.replicate 64 0, 0, 64⟩ 5 =
      (⟨List.replicate 64 0, 0, 64⟩, false) ∧
    CLatLong.process_event ⟨"", "", ⟨List.replicate 64 0, 0, 64⟩,
        CLatLong.dq_init⟩ (CLatLong.EvC.lat (some 5)) =
      (⟨"", "", ⟨List.replicate 64 0, 0, 64⟩, CLatLong.dq_init⟩, [],
       [CLatLong.latFullMsg]) :=
  c6_overflow_push ⟨List.replicate 64 0, 0, 64⟩ 5
    ⟨"", "", ⟨List.replicate 64 0, 0, 64⟩, CLatLong.dq_init⟩
    (by decide) rfl

set_option maxRecDepth 8000 in
/-- C7 (refuted — code bug): the ring-safety bound claimed for
clatlong.c fails on a reachable state.  After 64 latitude pushes and one
longitude push (which flushes one pair, advancing `start` to 1 without
ever resetting `end`), the latitude ring is reachable with size 63 <
MAX_PAIRS but write index `end` = 64; the next push is accepted by the
size guard and its store `data[end++]` indexes one past the 64-element
array (out of bounds — in the model the `List.set` out-of-range branch,
in C an out-of-bounds write / undefined behaviour). -/
theorem c7_oob_reachable :
    CLatLong.dq_size (CLatLong.process_reader CLatLong.state_init
        (List.replicate 64 (CLatLong.EvC.lat (some 1)) ++
          [CLatLong.EvC.lon (some 2)])).1.latitude < CLatLong.MAX_PAIRS ∧
    ¬ ((CLatLong.process_reader CLatLong.state_init
        (List.replicate 64 (CLatLong.EvC.lat (some 1)) ++
          [CLatLong.EvC.lon (some 2)])).1.latitude.end_ <
        CLatLong.MAX_PAIRS) ∧
    (CLatLong.dq_push_back (CLatLong.process_reader CLatLong.state_init
        (List.replicate 64 (CLatLong.EvC.lat (some 1)) ++
          [CLatLong.EvC.lon (some 2)])).1.latitude 3).2 = true ∧
    (CLatLong.process_reader CLatLong.state_init
        (List.replicate 64 (CLatLong.EvC.lat (some 1)) ++
          [CLatLong.EvC.lon (some 2)])).1.latitude.end_ ≥
      (CLatLong.process_reader CLatLong.state_init
        (List.replicate 64 (CLatLong.EvC.lat (some 1)) ++
          [CLatLong.EvC.lon (some 2)])).1.latitude.data.length := by
  decide

/-- C1: for every interleaving of successful pushes to the two series
within one block (with equally many pushes on each side), the emitted
pairs are exactly the zip of the two push streams — the i-th pair is the
i-th-pushed first-series value with the i-th-pushed second-series value,
whatever the relative order of the two streams.  Proved for cxml.c and
xmline.cpp (the sources of the claim). -/
theorem c1_fifo_pairing (evs : List Ev)
    (hpush : ∀ e ∈ evs, e.isSuccPush = true)
    (hN : (speedVals evs).length = (flowVals evs).length) :
    pairsOfX (CXml.process_reader CXml.state_init evs).2 =
        (speedVals evs).zip (flowVals evs) ∧
    pairsOfX (XmLine.processReader XmLine.init evs).2 =
        (speedVals evs).zip (flowVals evs) ∧
    (∀ i, ∀ hi : i < (speedVals evs).length,
      (pairsOfX (CXml.process_reader CXml.state_init evs).2).getD i (0, 0) =
        ((speedVals evs).get ⟨i, hi⟩, (flowVals evs).get ⟨i, hN ▸ hi⟩)) := by
  have hcx := (cx_run_pushes evs CXml.state_init hpush (Or.inl rfl)).1
  have hxm := (xm_run_pushes evs XmLine.init hpush (Or.inl rfl)).1
  have e1 : CXml.state_init.speeds = [] := rfl
  have e2 : CXml.state_init.flows = [] := rfl
  have e3 : XmLine.init.speeds = [] := rfl
  have e4 : XmLine.init.flows = [] := rfl
  rw [e1, e2, List.nil_append, List.nil_append] at hcx
  rw [e3, e4, List.nil_append, List.nil_append] at hxm
  refine ⟨hcx, hxm, ?_⟩
  intro i hi
  rw [hcx]
  have hiz : i < ((speedVals evs).zip (flowVals evs)).length := by
    simp [List.length_zip]
    omega
  rw [List.getD_eq_getElem _ _ hiz]
  simp [List.getElem_zip]

/-- Witness for C1: the spec's own example interleaving. -/
theorem c1_fifo_pairing_witness :
    pairsOfX (CXml.process_reader CXml.state_init
        [Ev.speed (some 105), Ev.flow (some 200), Ev.flow (some 210),
         Ev.speed (some 110)]).2 = [(105, 200), (110, 210)] ∧
    pairsOfX (XmLine.processReader XmLine.init
        [Ev.speed (some 105), Ev.flow (some 200), Ev.flow (some 210),
         Ev.speed (some 110)]).2 = [(105, 200), (110, 210)] := by
  have h := c1_fifo_pairing
    [Ev.speed (some 105), Ev.flow (some 200), Ev.flow (some 210),
     Ev.speed (some 110)] (by decide) (by decide)
  exact ⟨h.1.trans (by decide), h.2.1.trans (by decide)⟩

theorem recsOfC_append (a b : List CLatLong.LineC) :
    CLatLong.recsOfC (a ++ b) = CLatLong.recsOfC a ++ CLatLong.recsOfC b := by
  simp [CLatLong.recsOfC, List.filterMap_append]

theorem clat_step_lat_full (st : CLatLong.parser_state_t) (v : Int)
    (hfull : CLatLong.dq_size st.latitude ≥ CLatLong.MAX_PAIRS) :
    CLatLong.process_event st (CLatLong.EvC.lat (some v)) =
      (st, [], [CLatLong.latFullMsg]) := by
  have hp := dq_push_full st.latitude v hfull
  obtain ⟨si, da, qa, qb⟩ := st
  simp only at hp
  simp [CLatLong.process_event, CLatLong.handle_start_element,
    CLatLong.h_latitude, hp]

theorem clat_step_lon_full (st : CLatLong.parser_state_t) (v : Int)
    (hfull : CLatLong.dq_size st.longitude ≥ CLatLong.MAX_PAIRS) :
    CLatLong.process_event st (CLatLong.EvC.lon (some v)) =
      (st, [], [CLatLong.lonFullMsg]) := by
  have hp := dq_push_full st.longitude v hfull
  obtain ⟨si, da, qa, qb⟩ := st
  simp only at hp
  simp [CLatLong.process_event, CLatLong.handle_start_element,
    CLatLong.h_longitude, hp]

theorem clat_step_lat_push (st : CLatLong.parser_state_t) (v : Int)
    (hb : (CLatLong.dq_push_back st.latitude v).2 = true) :
    (CLatLong.process_event st (CLatLong.EvC.lat (some v))).1 =
      (CLatLong.state_flush_pairs
        { st with latitude := (CLatLong.dq_push_back st.latitude v).1 }).1 ∧
    (CLatLong.process_event st (CLatLong.EvC.lat (some v))).2.1 =
      (CLatLong.state_flush_pairs
        { st with latitude := (CLatLong.dq_push_back st.latitude v).1 }).2 ∧
    (CLatLong.process_event st (CLatLong.EvC.lat (some v))).2.2 = [] := by
  simp [CLatLong.process_event, CLatLong.handle_start_element,
    CLatLong.h_latitude, hb]

theorem clat_step_lon_push (st : CLatLong.parser_state_t) (v : Int)
    (hb : (CLatLong.dq_push_back st.longitude v).2 = true) :
    (CLatLong.process_event st (CLatLong.EvC.lon (some v))).1 =
      (CLatLong.state_flush_pairs
        { st with longitude := (CLatLong.dq_push_back st.longitude v).1 }).1 ∧
    (CLatLong.process_event st (CLatLong.EvC.lon (some v))).2.1 =
      (CLatLong.state_flush_pairs
        { st with longitude := (CLatLong.dq_push_back st.longitude v).1 }).2 ∧
    (CLatLong.process_event st (CLatLong.EvC.lon (some v))).2.2 = [] := by
  simp [CLatLong.process_event, CLatLong.handle_start_element,
    CLatLong.h_longitude, hb]

/-- Push/drop/emission accounting for clatlong.c along a push-only
trace: per series, old size + push attempts = new size + reported drops
+ emitted lines, and every stdout line is a pair record. -/
theorem clat_run_count (evs : List CLatLong.EvC) :
    ∀ (st : CLatLong.parser_state_t),
    (∀ e ∈ evs, CLatLong.EvC.isPushC e = true) →
    CLatLong.InvS st →
    (CLatLong.recsOfC (CLatLong.process_reader st evs).2.1).length =
        ((CLatLong.process_reader st evs).2.1).length ∧
    CLatLong.dq_size (CLatLong.process_reader st evs).1.latitude +
        List.count CLatLong.latFullMsg (CLatLong.process_reader st evs).2.2 +
        ((CLatLong.process_reader st evs).2.1).length =
      CLatLong.dq_size st.latitude + CLatLong.latCntC evs ∧
    CLatLong.dq_size (CLatLong.process_reader st evs).1.longitude +
        List.count CLatLong.lonFullMsg (CLatLong.process_reader st evs).2.2 +
        ((CLatLong.process_reader st evs).2.1).length =
      CLatLong.dq_size st.longitude + CLatLong.lonCntC evs := by
  induction evs with
  | nil =>
    intro st _ _
    simp [CLatLong.process_reader, CLatLong.recsOfC, CLatLong.latCntC,
      CLatLong.lonCntC]
  | cons e rest ih =>
    intro st hpush hinv
    have he := hpush e (by simp)
    have hrest : ∀ x ∈ rest, CLatLong.EvC.isPushC x = true :=
      fun x hx => hpush x (by simp [hx])
    have hinv2 := clat_step_inv st e hinv
    have key := ih (CLatLong.process_event st e).1 hrest hinv2
    rw [clat_run_cons]
    obtain ⟨⟨hw1, hl1⟩, ⟨hw2, hl2⟩, hmin⟩ := hinv
    cases e with
    | pubTime t => simp [CLatLong.EvC.isPushC] at he
    | blockStart => simp [CLatLong.EvC.isPushC] at he
    | siteRec a => simp [CLatLong.EvC.isPushC] at he
    | versionTime t => simp [CLatLong.EvC.isPushC] at he
    | otherStart => simp [CLatLong.EvC.isPushC] at he
    | blockEnd => simp [CLatLong.EvC.isPushC] at he
    | otherEnd => simp [CLatLong.EvC.isPushC] at he
    | lat p =>
      cases p with
      | none => simp [CLatLong.EvC.isPushC] at he
      | some v =>
        have hlc : CLatLong.latCntC (CLatLong.EvC.lat (some v) :: rest) =
            CLatLong.latCntC rest + 1 := by
          simp [CLatLong.latCntC, List.filter_cons]
        have hoc : CLatLong.lonCntC (CLatLong.EvC.lat (some v) :: rest) =
            CLatLong.lonCntC rest := by
          simp [CLatLong.lonCntC, List.filter_cons]
        by_cases hfull : CLatLong.dq_size st.latitude ≥ CLatLong.MAX_PAIRS
        · have hstep := clat_step_lat_full st v hfull
          rw [hstep] at key ⊢
          simp only [List.nil_append, List.singleton_append] at key ⊢
          obtain ⟨k1, k2, k3⟩ := key
          have hne : CLatLong.latFullMsg ≠ CLatLong.lonFullMsg := by decide
          have hc1 : List.count CLatLong.latFullMsg
              (CLatLong.latFullMsg :: (CLatLong.process_reader st rest).2.2) =
              List.count CLatLong.latFullMsg
                (CLatLong.process_reader st rest).2.2 + 1 := by
            simp [List.count_cons]
          have hc2 : List.count CLatLong.lonFullMsg
              (CLatLong.latFullMsg :: (CLatLong.process_reader st rest).2.2) =
              List.count CLatLong.lonFullMsg
                (CLatLong.process_reader st rest).2.2 := by
            simp [List.count_cons, hne]
          refine ⟨k1, ?_, ?_⟩
          · rw [hlc, hc1]
            omega
          · rw [hoc, hc2]
            omega
        · have hlt : CLatLong.dq_size st.latitude < CLatLong.MAX_PAIRS := by
            omega
          obtain ⟨hb, hsz, hwf, hlen⟩ := dq_push_ok st.latitude v hw1 hlt
          obtain ⟨hstep1, hstep2, hstep3⟩ := clat_step_lat_push st v hb
          rw [hstep1] at key
          rw [hstep1, hstep2, hstep3]
          have hfs := clat_flush_spec
            { st with latitude := (CLatLong.dq_push_back st.latitude v).1 }
            (by simpa using hwf) (by simpa using hw2)
          obtain ⟨r1, r2, r3, r4, r5, r6, r7, r8, r9, r10⟩ := hfs
          obtain ⟨k1, k2, k3⟩ := key
          have hsz1 : CLatLong.dq_size
              ({ st with latitude :=
                  (CLatLong.dq_push_back st.latitude v).1 }).latitude =
              CLatLong.dq_size st.latitude + 1 := by simpa using hsz
          have hsz2 : CLatLong.dq_size
              ({ st with latitude :=
                  (CLatLong.dq_push_back st.latitude v).1 }).longitude =
              CLatLong.dq_size st.longitude := rfl
          rw [hsz1, hsz2] at r1 r2 r3
          refine ⟨?_, ?_, ?_⟩
          · simp only [recsOfC_append, List.length_append] at k1 ⊢
            omega
          · simp only [List.nil_append, List.length_append]
            rw [hlc]
            omega
          · simp only [List.nil_append, List.length_append]
            rw [hoc]
            omega
    | lon p =>
      cases p with
      | none => simp [CLatLong.EvC.isPushC] at he
      | some v =>
        have hlc : CLatLong.latCntC (CLatLong.EvC.lon (some v) :: rest) =
            CLatLong.latCntC rest := by
          simp [CLatLong.latCntC, List.filter_cons]
        have hoc : CLatLong.lonCntC (CLatLong.EvC.lon (some v) :: rest) =
            CLatLong.lonCntC rest + 1 := by
          simp [CLatLong.lonCntC, List.filter_cons]
        by_cases hfull : CLatLong.dq_size st.longitude ≥ CLatLong.MAX_PAIRS
        · have hstep := clat_step_lon_full st v hfull
          rw [hstep] at key ⊢
          simp only [List.nil_append, List.singleton_append] at key ⊢
          obtain ⟨k1, k2, k3⟩ := key
          have hne : CLatLong.lonFullMsg ≠ CLatLong.latFullMsg := by decide
          have hc1 : List.count CLatLong.latFullMsg
              (CLatLong.lonFullMsg :: (CLatLong.process_reader st rest).2.2) =
              List.count CLatLong.latFullMsg
                (CLatLong.process_reader st rest).2.2 := by
            simp [List.count_cons, hne]
          have hc2 : List.count CLatLong.lonFullMsg
              (CLatLong.lonFullMsg :: (CLatLong.process_reader st rest).2.2) =
              List.count CLatLong.lonFullMsg
                (CLatLong.process_reader st rest).2.2 + 1 := by
            simp [List.count_cons]
          refine ⟨k1, ?_, ?_⟩
          · rw [hlc, hc1]
            omega
          · rw [hoc, hc2]
            omega
        · have hlt : CLatLong.dq_size st.longitude < CLatLong.MAX_PAIRS := by
            omega
          obtain ⟨hb, hsz, hwf, hlen⟩ := dq_push_ok st.longitude v hw2 hlt
          obtain ⟨hstep1, hstep2, hstep3⟩ := clat_step_lon_push st v hb
          rw [hstep1] at key
          rw [hstep1, hstep2, hstep3]
          have hfs := clat_flush_spec
            { st with longitude := (CLatLong.dq_push_back st.longitude v).1 }
            (by simpa using hw1) (by simpa using hwf)
          obtain ⟨r1, r2, r3, r4, r5, r6, r7, r8, r9, r10⟩ := hfs
          obtain ⟨k1, k2, k3⟩ := key
          have hsz1 : CLatLong.dq_size
              ({ st with longitude :=
                  (CLatLong.dq_push_back st.longitude v).1 }).longitude =
              CLatLong.dq_size st.longitude + 1 := by simpa using hsz
          have hsz2 : CLatLong.dq_size
              ({ st with longitude :=
                  (CLatLong.dq_push_back st.longitude v).1 }).latitude =
              CLatLong.dq_size st.latitude := rfl
          rw [hsz1, hsz2] at r1 r2 r3
          refine ⟨?_, ?_, ?_⟩
          · simp only [recsOfC_append, List.length_append] at k1 ⊢
            omega
          · simp only [List.nil_append, List.length_append]
            rw [hlc]
            omega
          · simp only [List.nil_append, List.length_append]
            rw [hoc]
            omega

set_option maxRecDepth 8000 in
/-- C2 (counterexample): with 66 latitude pushes (2 of which overflow
and are dropped) followed by one longitude push, exactly one pair is
emitted, but the claimed formula min(count_first_pushed,
count_second_pushed) - dropped evaluates to min(66, 1) - 2 = -1 ≠ 1. -/
theorem c2_counterexample :
    (CLatLong.recsOfC (CLatLong.process_reader CLatLong.state_init
        (List.replicate 66 (CLatLong.EvC.lat (some 1)) ++
          [CLatLong.EvC.lon (some 2)])).2.1).length = 1 ∧
    ((CLatLong.process_reader CLatLong.state_init
        (List.replicate 66 (CLatLong.EvC.lat (some 1)) ++
          [CLatLong.EvC.lon (some 2)])).2.2).length = 2 ∧
    CLatLong.latCntC (List.replicate 66 (CLatLong.EvC.lat (some 1)) ++
        [CLatLong.EvC.lon (some 2)]) = 66 ∧
    CLatLong.lonCntC (List.replicate 66 (CLatLong.EvC.lat (some 1)) ++
        [CLatLong.EvC.lon (some 2)]) = 1 ∧
    ¬ (((CLatLong.recsOfC (CLatLong.process_reader CLatLong.state_init
          (List.replicate 66 (CLatLong.EvC.lat (some 1)) ++
            [CLatLong.EvC.lon (some 2)])).2.1).length : Int) =
        min
          ((CLatLong.latCntC (List.replicate 66 (CLatLong.EvC.lat (some 1)) ++
            [CLatLong.EvC.lon (some 2)]) : Int))
          ((CLatLong.lonCntC (List.replicate 66 (CLatLong.EvC.lat (some 1)) ++
            [CLatLong.EvC.lon (some 2)]) : Int)) -
        (((CLatLong.process_reader CLatLong.state_init
            (List.replicate 66 (CLatLong.EvC.lat (some 1)) ++
              [CLatLong.EvC.lon (some 2)])).2.2).length : Int)) := by
  refine ⟨by decide, by decide, by decide, by decide, by decide⟩

/-- C2 (amended): no pair is emitted while either queue is empty, and
the number of pairs emitted over a push-only trace equals the minimum of
the per-series counts of values actually enqueued — push attempts minus
the values dropped to overflow on that same series. -/
theorem c2_emission_count (evs : List CLatLong.EvC)
    (hpush : ∀ e ∈ evs, CLatLong.EvC.isPushC e = true) :
    (∀ st : CLatLong.parser_state_t,
      CLatLong.dq_size st.latitude = 0 ∨ CLatLong.dq_size st.longitude = 0 →
      (CLatLong.state_flush_pairs st).2 = []) ∧
    (CLatLong.recsOfC (CLatLong.process_reader CLatLong.state_init
        evs).2.1).length =
      min
        (CLatLong.latCntC evs -
          List.count CLatLong.latFullMsg
            (CLatLong.process_reader CLatLong.state_init evs).2.2)
        (CLatLong.lonCntC evs -
          List.count CLatLong.lonFullMsg
            (CLatLong.process_reader CLatLong.state_init evs).2.2) := by
  constructor
  · intro st h
    rw [clat_flush_nil st h]
  · obtain ⟨k1, k2, k3⟩ := clat_run_count evs CLatLong.state_init hpush
      clat_init_inv
    have hfin := (clat_run_inv evs).2.2
    have hz1 : CLatLong.dq_size CLatLong.state_init.latitude = 0 := rfl
    have hz2 : CLatLong.dq_size CLatLong.state_init.longitude = 0 := rfl
    rw [hz1] at k2
    rw [hz2] at k3
    rw [k1]
    omega

/-- Witness for C2 (amended) at a concrete push trace: one latitude
value then two longitude values emit exactly one pair (no drops). -/
theorem c2_emission_count_witness :
    (CLatLong.state_flush_pairs CLatLong.state_init).2 = [] ∧
    (CLatLong.recsOfC (CLatLong.process_reader CLatLong.state_init
        [CLatLong.EvC.lat (some 1), CLatLong.EvC.lon (some 2),
         CLatLong.EvC.lon (some 3)]).2.1).length = 1 := by
  have h := c2_emission_count
    [CLatLong.EvC.lat (some 1), CLatLong.EvC.lon (some 2),
     CLatLong.EvC.lon (some 3)] (by decide)
  exact ⟨h.1 CLatLong.state_init (Or.inl rfl), h.2.trans (by decide)⟩

theorem cx_run_append (xs ys : List Ev) : ∀ (st : CXml.parser_state_t),
    CXml.process_reader st (xs ++ ys) =
      ((CXml.process_reader (CXml.process_reader st xs).1 ys).1,
       (CXml.process_reader st xs).2 ++
         (CXml.process_reader (CXml.process_reader st xs).1 ys).2) := by
  induction xs with
  | nil => intro st; simp [CXml.process_reader]
  | cons e rest ih =>
    intro st
    rw [List.cons_append, cx_run_cons, cx_run_cons, ih]
    simp [List.append_assoc]

theorem cx_flush_site (st : CXml.parser_state_t) :
    (CXml.state_flush_pairs st).1.site_id = st.site_id := rfl

/-- Within a block, the cxml.c site label evolves exactly by
`updLabel`: a present "id" attribute replaces it, everything else keeps
it. -/
theorem cx_site_inBlock (evs : List Ev) : ∀ (st : CXml.parser_state_t),
    (∀ e ∈ evs, e.inBlock = true) →
    (CXml.process_reader st evs).1.site_id = evs.foldl updLabel st.site_id := by
  induction evs with
  | nil => intro st _; rfl
  | cons e rest ih =>
    intro st hB
    have heB : e.inBlock = true := hB e (by simp)
    have hrest : ∀ x ∈ rest, x.inBlock = true := fun x hx => hB x (by simp [hx])
    rw [cx_run_cons, List.foldl_cons, ih _ hrest]
    congr 1
    cases e with
    | pubTime t => cases t <;> rfl
    | blockStart => simp [Ev.inBlock] at heB
    | siteRef a => cases a <;> rfl
    | speed p => cases p with
      | none => rfl
      | some v => exact cx_flush_site _
    | flow p => cases p with
      | none => rfl
      | some v => exact cx_flush_site _
    | otherStart => rfl
    | blockEnd => simp [Ev.inBlock] at heB
    | otherEnd => rfl

/-- Records printed while handling one in-block notification all carry
the site label current when the notification arrived. -/
theorem cx_step_records_site (st : CXml.parser_state_t) (e : Ev)
    (hB : e.inBlock = true) :
    ∀ r ∈ recsOfX (CXml.process_event st e).2,
      r.site = CXml.siteOf st.site_id := by
  cases e with
  | pubTime t =>
    cases t <;> simp [CXml.process_event, CXml.handle_start_element, recsOfX]
  | blockStart => simp [Ev.inBlock] at hB
  | siteRef a =>
    cases a <;> simp [CXml.process_event, CXml.handle_start_element, recsOfX]
  | speed p =>
    cases p with
    | none => simp [CXml.process_event, CXml.handle_start_element, recsOfX]
    | some v =>
      intro r hr
      rw [cx_step_speed, cx_flush_eq] at hr
      simp only [recsOfX_map_record] at hr
      exact recsFrom_site _ _ _ r hr
  | flow p =>
    cases p with
    | none => simp [CXml.process_event, CXml.handle_start_element, recsOfX]
    | some v =>
      intro r hr
      rw [cx_step_flow, cx_flush_eq] at hr
      simp only [recsOfX_map_record] at hr
      exact recsFrom_site _ _ _ r hr
  | otherStart => simp [CXml.process_event, CXml.handle_start_element, recsOfX]
  | blockEnd => simp [Ev.inBlock] at hB
  | otherEnd => simp [CXml.process_event, recsOfX]

/-- If no event of an in-block trace sets the label and the label starts
unset, every record printed carries the sentinel site. -/
theorem cx_nolabel (evs : List Ev) : ∀ (st : CXml.parser_state_t),
    (∀ e ∈ evs, e.inBlock = true) →
    (∀ e ∈ evs, e.setsLabel = false) →
    st.site_id = none →
    ∀ r ∈ recsOfX (CXml.process_reader st evs).2,
      r.site = "(unknown_site)" := by
  induction evs with
  | nil =>
    intro st _ _ _ r hr
    simp [CXml.process_reader, recsOfX] at hr
  | cons e rest ih =>
    intro st hB hL hnone r hr
    rw [cx_run_cons] at hr
    rw [recsOfX_append] at hr
    rcases List.mem_append.mp hr with h | h
    · have hs := cx_step_records_site st e (hB e (by simp)) r h
      rw [hs, hnone]
      rfl
    · have hpres : (CXml.process_event st e).1.site_id = none := by
        cases e with
        | pubTime t => cases t <;> exact hnone
        | blockStart =>
          have := hB Ev.blockStart (by simp)
          simp [Ev.inBlock] at this
        | siteRef a =>
          cases a with
          | none => exact hnone
          | some s =>
            have := hL (Ev.siteRef (some s)) (by simp)
            simp [Ev.setsLabel] at this
        | speed p =>
          cases p with
          | none => exact hnone
          | some v => rw [cx_step_speed, cx_flush_site]; exact hnone
        | flow p =>
          cases p with
          | none => exact hnone
          | some v => rw [cx_step_flow, cx_flush_site]; exact hnone
        | otherStart => exact hnone
        | blockEnd =>
          have := hB Ev.blockEnd (by simp)
          simp [Ev.inBlock] at this
        | otherEnd => exact hnone
      exact ih _ (fun x hx => hB x (by simp [hx]))
        (fun x hx => hL x (by simp [hx])) hpres r h

theorem idxAdd_mod : ∀ (m i : Nat), idxAdd (i % U32) m = (i + m) % U32 := by
  intro m
  induction m with
  | zero => intro i; rfl
  | succ m ih =>
    intro i
    rw [idxAdd_succ]
    have h1 : (i % U32 + 1) % U32 = (i + 1) % U32 := Nat.mod_add_mod i U32 1
    rw [h1, ih (i + 1)]
    have h2 : i + 1 + m = i + (m + 1) := by omega
    rw [h2]

theorem recsFrom_getD (site : String) : ∀ (ps : List (Int × Int)) (idx j : Nat),
    j < ps.length → ((recsFrom site idx ps).getD j dRec).idx = idxAdd idx j
  | [], idx, j => by simp
  | (s, f) :: rest, idx, 0 => fun _ => rfl
  | (s, f) :: rest, idx, j + 1 => by
    intro hj
    simp only [recsFrom, List.getD_cons_succ]
    rw [recsFrom_getD site rest ((idx + 1) % U32) j (by simpa using hj)]
    exact (idxAdd_succ idx j).symm

theorem cx_step_speed_mk (si : Option String) (sp fl : List Int) (ix : Nat)
    (v : Int) :
    CXml.process_event ⟨si, sp, fl, ix⟩ (Ev.speed (some v)) =
      CXml.state_flush_pairs ⟨si, sp ++ [v], fl, ix⟩ := rfl

theorem cx_step_flow_mk (si : Option String) (sp fl : List Int) (ix : Nat)
    (v : Int) :
    CXml.process_event ⟨si, sp, fl, ix⟩ (Ev.flow (some v)) =
      CXml.state_flush_pairs ⟨si, sp, fl ++ [v], ix⟩ := rfl

theorem cx_flush_eq_mk (si : Option String) (sp fl : List Int) (ix : Nat) :
    CXml.state_flush_pairs ⟨si, sp, fl, ix⟩ =
      (⟨si, sp.drop (sp.zip fl).length, fl.drop (sp.zip fl).length,
        idxAdd ix (sp.zip fl).length⟩,
       (recsFrom (CXml.siteOf si) ix (sp.zip fl)).map LineX.record) := by
  simp [CXml.state_flush_pairs, flushLoop_eq]

/-- Within a block, the cxml.c pair counter runs consecutively: if it
holds (1+k) mod 2^32 at the start, the j-th record printed during the
trace carries index (1+k+j) mod 2^32 and the counter ends at
(1+k+total) mod 2^32. -/
theorem cx_run_idx (evs : List Ev) : ∀ (st : CXml.parser_state_t) (k : Nat),
    (∀ e ∈ evs, e.inBlock = true) →
    st.idx = (1 + k) % U32 →
    (CXml.process_reader st evs).1.idx =
        (1 + k + (recsOfX (CXml.process_reader st evs).2).length) % U32 ∧
    ∀ j, j < (recsOfX (CXml.process_reader st evs).2).length →
      ((recsOfX (CXml.process_reader st evs).2).getD j dRec).idx =
        (1 + k + j) % U32 := by
  induction evs with
  | nil =>
    intro st k _ hidx
    constructor
    · simpa [CXml.process_reader, recsOfX] using hidx
    · intro j hj
      simp [CXml.process_reader, recsOfX] at hj
  | cons e rest ih =>
    intro st k hB hidx
    obtain ⟨si, sp, fl, ix⟩ := st
    simp only at hidx
    have heB := hB e (by simp)
    have hrest : ∀ x ∈ rest, x.inBlock = true := fun x hx => hB x (by simp [hx])
    rw [cx_run_cons, recsOfX_append]
    simp only []
    cases e with
    | pubTime t =>
      cases t with
      | none =>
        have h := ih ⟨si, sp, fl, ix⟩ k hrest hidx
        simpa [CXml.process_event, CXml.handle_start_element, recsOfX] using h
      | some s =>
        have h := ih ⟨si, sp, fl, ix⟩ k hrest hidx
        simpa [CXml.process_event, CXml.handle_start_element, recsOfX] using h
    | blockStart => simp [Ev.inBlock] at heB
    | blockEnd => simp [Ev.inBlock] at heB
    | otherStart =>
      have h := ih ⟨si, sp, fl, ix⟩ k hrest hidx
      simpa [CXml.process_event, CXml.handle_start_element, recsOfX] using h
    | otherEnd =>
      have h := ih ⟨si, sp, fl, ix⟩ k hrest hidx
      simpa [CXml.process_event, recsOfX] using h
    | siteRef a =>
      cases a with
      | none =>
        have h := ih ⟨si, sp, fl, ix⟩ k hrest hidx
        simpa [CXml.process_event, CXml.handle_start_element, recsOfX] using h
      | some s =>
        have h := ih ⟨some s, sp, fl, ix⟩ k hrest hidx
        simpa [CXml.process_event, CXml.handle_start_element, recsOfX] using h
    | speed p =>
      cases p with
      | none =>
        have h := ih ⟨si, sp, fl, ix⟩ k hrest hidx
        simpa [CXml.process_event, CXml.handle_start_element, recsOfX] using h
      | some v =>
        rw [cx_step_speed_mk, cx_flush_eq_mk]
        simp only []
        have hlen1 : (recsOfX ((recsFrom (CXml.siteOf si) ix
            ((sp ++ [v]).zip fl)).map LineX.record)).length =
            ((sp ++ [v]).zip fl).length := by
          rw [recsOfX_map_record, recsFrom_length]
        have h := ih ⟨si, (sp ++ [v]).drop ((sp ++ [v]).zip fl).length,
            fl.drop ((sp ++ [v]).zip fl).length,
            idxAdd ix ((sp ++ [v]).zip fl).length⟩
          (k + ((sp ++ [v]).zip fl).length) hrest (by
            show idxAdd ix ((sp ++ [v]).zip fl).length = _
            rw [hidx, idxAdd_mod]
            congr 1
            omega)
        obtain ⟨h1, h2⟩ := h
        constructor
        · rw [List.length_append, hlen1, h1]
          congr 1
          omega
        · intro j hj
          rw [List.length_append, hlen1] at hj
          by_cases hjm : j < ((sp ++ [v]).zip fl).length
          · rw [List.getD_append _ _ _ _ (by rw [hlen1]; exact hjm)]
            rw [recsOfX_map_record]
            rw [recsFrom_getD _ _ _ _ hjm]
            rw [hidx, idxAdd_mod]
          · rw [List.getD_append_right _ _ _ _ (by rw [hlen1]; omega)]
            rw [hlen1]
            rw [h2 _ (by omega)]
            congr 1
            omega
    | flow p =>
      cases p with
      | none =>
        have h := ih ⟨si, sp, fl, ix⟩ k hrest hidx
        simpa [CXml.process_event, CXml.handle_start_element, recsOfX] using h
      | some v =>
        rw [cx_step_flow_mk, cx_flush_eq_mk]
        simp only []
        have hlen1 : (recsOfX ((recsFrom (CXml.siteOf si) ix
            (sp.zip (fl ++ [v]))).map LineX.record)).length =
            (sp.zip (fl ++ [v])).length := by
          rw [recsOfX_map_record, recsFrom_length]
        have h := ih ⟨si, sp.drop (sp.zip (fl ++ [v])).length,
            (fl ++ [v]).drop (sp.zip (fl ++ [v])).length,
            idxAdd ix (sp.zip (fl ++ [v])).length⟩
          (k + (sp.zip (fl ++ [v])).length) hrest (by
            show idxAdd ix (sp.zip (fl ++ [v])).length = _
            rw [hidx, idxAdd_mod]
            congr 1
            omega)
        obtain ⟨h1, h2⟩ := h
        constructor
        · rw [List.length_append, hlen1, h1]
          congr 1
          omega
        · intro j hj
          rw [List.length_append, hlen1] at hj
          by_cases hjm : j < (sp.zip (fl ++ [v])).length
          · rw [List.getD_append _ _ _ _ (by rw [hlen1]; exact hjm)]
            rw [recsOfX_map_record]
            rw [recsFrom_getD _ _ _ _ hjm]
            rw [hidx, idxAdd_mod]
          · rw [List.getD_append_right _ _ _ _ (by rw [hlen1]; omega)]
            rw [hlen1]
            rw [h2 _ (by omega)]
            congr 1
            omega

/-- C9 (counterexample): a clatlong.c record does not have the
spec-prescribed non-indexed shape [label, first value, second value] —
it carries a second label field (the version date, with its own
sentinel) before the two values. -/
theorem c9_counterexample :
    (CLatLong.process_reader CLatLong.state_init
        [CLatLong.EvC.lat (some 1), CLatLong.EvC.lon (some 2)]).2.1 =
      [CLatLong.LineC.record ⟨"(unknown_site)", "(unknown_date)", 1, 2⟩] ∧
    fieldsOfRecC ⟨"(unknown_site)", "(unknown_date)", 1, 2⟩ =
      [OutField.str "(unknown_site)", OutField.str "(unknown_date)",
       OutField.num 1, OutField.num 2] ∧
    ¬ specPlainShape (fieldsOfRecC ⟨"(unknown_site)", "(unknown_date)", 1, 2⟩) := by
  refine ⟨by decide, rfl, ?_⟩
  rintro ⟨lab, v1, v2, h⟩
  simp [fieldsOfRecC] at h

/-- C8 (counterexample): an out-of-range numeral is NOT dropped by
xmline.cpp.  strtol flags 22 nines as ERANGE and clamps to LONG_MAX;
`readElementLong` performs no errno check, returns the clamped value,
and the dispatcher pushes it onto the flow queue. -/
theorem c8_counterexample :
    strtol10 "9999999999999999999999" = some (LONG_MAX, true) ∧
    readElementLong (some "9999999999999999999999") =
      some 9223372036854775807 ∧
    (XmLine.processEvent XmLine.init
        (Ev.flow (readElementLong
          (some "9999999999999999999999")))).1.flows =
      [9223372036854775807] := by
  refine ⟨by decide, by decide, by decide⟩

/-- C8 (amended): absent text and text with no parsable digits are
dropped by both readers; an out-of-range numeral is additionally dropped
by the cxml.c reader (ERANGE check); and on any failed read the
dispatcher pushes nothing, emits nothing and leaves the state unchanged,
continuing with the next notification. -/
theorem c8_parse_failure_drop :
    (∀ txt : Option String, txt = none →
      read_element_long txt = none ∧ readElementLong txt = none) ∧
    (∀ s : String, strtol10 s = none →
      read_element_long (some s) = none ∧ readElementLong (some s) = none) ∧
    (∀ (s : String) (v : Int), strtol10 s = some (v, true) →
      read_element_long (some s) = none) ∧
    (∀ st : CXml.parser_state_t,
      CXml.process_event st (Ev.flow none) = (st, []) ∧
      CXml.process_event st (Ev.speed none) = (st, [])) ∧
    (∀ st : XmLine.ParserState,
      XmLine.processEvent st (Ev.flow none) = (st, []) ∧
      XmLine.processEvent st (Ev.speed none) = (st, [])) ∧
    (∀ st : CLatLong.parser_state_t,
      CLatLong.process_event st (CLatLong.EvC.lat none) = (st, [], []) ∧
      CLatLong.process_event st (CLatLong.EvC.lon none) = (st, [], [])) := by
  refine ⟨?_, ?_, ?_, ?_, ?_, ?_⟩
  · intro txt h
    subst h
    exact ⟨rfl, rfl⟩
  · intro s h
    simp [read_element_long, readElementLong, h]
  · intro s v h
    simp [read_element_long, h]
  · intro st
    exact ⟨rfl, rfl⟩
  · intro st
    exact ⟨rfl, rfl⟩
  · intro st
    exact ⟨rfl, rfl⟩

/-- Witness for C8 (amended) at concrete failed reads. -/
theorem c8_parse_failure_drop_witness :
    read_element_long (some "abc") = none ∧
    readElementLong (some "abc") = none ∧
    read_element_long (some "9999999999999999999999") = none ∧
    CXml.process_event CXml.state_init (Ev.flow none) =
      (CXml.state_init, []) := by
  have h := c8_parse_failure_drop
  exact ⟨(h.2.1 "abc" (by decide)).1, (h.2.1 "abc" (by decide)).2,
    h.2.2.1 "9999999999999999999999" 9223372036854775807 (by decide),
    (h.2.2.2.1 CXml.state_init).1⟩

theorem xm_flush_site (st : XmLine.ParserState) :
    (XmLine.flushPairs st).1.siteId = st.siteId := rfl

theorem xm_run_append (xs ys : List Ev) : ∀ (st : XmLine.ParserState),
    XmLine.processReader st (xs ++ ys) =
      ((XmLine.processReader (XmLine.processReader st xs).1 ys).1,
       (XmLine.processReader st xs).2 ++
         (XmLine.processReader (XmLine.processReader st xs).1 ys).2) := by
  induction xs with
  | nil => intro st; simp [XmLine.processReader]
  | cons e rest ih =>
    intro st
    rw [List.cons_append, xm_run_cons, xm_run_cons, ih]
    simp [List.append_assoc]

/-- Within a block, the xmline.cpp site label evolves exactly by
`updLabelXm`: a present "id" attribute replaces it, a missing one
clears it, everything else keeps it. -/
theorem xm_site_inBlock (evs : List Ev) : ∀ (st : XmLine.ParserState),
    (∀ e ∈ evs, e.inBlock = true) →
    (XmLine.processReader st evs).1.siteId =
      evs.foldl updLabelXm st.siteId := by
  induction evs with
  | nil => intro st _; rfl
  | cons e rest ih =>
    intro st hB
    have heB : e.inBlock = true := hB e (by simp)
    have hrest : ∀ x ∈ rest, x.inBlock = true := fun x hx => hB x (by simp [hx])
    rw [xm_run_cons, List.foldl_cons, ih _ hrest]
    congr 1
    cases e with
    | pubTime t => cases t <;> rfl
    | blockStart => simp [Ev.inBlock] at heB
    | siteRef a => cases a <;> rfl
    | speed p => cases p with
      | none => rfl
      | some v => exact xm_flush_site _
    | flow p => cases p with
      | none => rfl
      | some v => exact xm_flush_site _
    | otherStart => rfl
    | blockEnd => simp [Ev.inBlock] at heB
    | otherEnd => rfl

/-- Records printed while xmline.cpp handles one in-block notification
all carry the (sentinel-substituted) site label current when the
notification arrived. -/
theorem xm_step_records_site (st : XmLine.ParserState) (e : Ev)
    (hB : e.inBlock = true) :
    ∀ r ∈ recsOfX (XmLine.processEvent st e).2,
      r.site = XmLine.siteOfXm st.siteId := by
  cases e with
  | pubTime t =>
    cases t <;> simp [XmLine.processEvent, XmLine.handleStartElement, recsOfX]
  | blockStart => simp [Ev.inBlock] at hB
  | siteRef a =>
    cases a <;> simp [XmLine.processEvent, XmLine.handleStartElement, recsOfX]
  | speed p =>
    cases p with
    | none => simp [XmLine.processEvent, XmLine.handleStartElement, recsOfX]
    | some v =>
      intro r hr
      rw [xm_step_speed, xm_flush_eq] at hr
      simp only [recsOfX_map_record] at hr
      exact recsFrom_site _ _ _ r hr
  | flow p =>
    cases p with
    | none => simp [XmLine.processEvent, XmLine.handleStartElement, recsOfX]
    | some v =>
      intro r hr
      rw [xm_step_flow, xm_flush_eq] at hr
      simp only [recsOfX_map_record] at hr
      exact recsFrom_site _ _ _ r hr
  | otherStart =>
    simp [XmLine.processEvent, XmLine.handleStartElement, recsOfX]
  | blockEnd => simp [Ev.inBlock] at hB
  | otherEnd => simp [XmLine.processEvent, recsOfX]

/-- If no event of an in-block trace sets the xmline.cpp label and the
label starts empty, every record carries the sentinel site (a
missing-attribute reference re-clears it, preserving the invariant). -/
theorem xm_nolabel (evs : List Ev) : ∀ (st : XmLine.ParserState),
    (∀ e ∈ evs, e.inBlock = true) →
    (∀ e ∈ evs, e.setsLabel = false) →
    st.siteId = "" →
    ∀ r ∈ recsOfX (XmLine.processReader st evs).2,
      r.site = "(unknown_site)" := by
  induction evs with
  | nil =>
    intro st _ _ _ r hr
    simp [XmLine.processReader, recsOfX] at hr
  | cons e rest ih =>
    intro st hB hL hnone r hr
    rw [xm_run_cons] at hr
    rw [recsOfX_append] at hr
    rcases List.mem_append.mp hr with h | h
    · have hs := xm_step_records_site st e (hB e (by simp)) r h
      rw [hs, hnone]
      rfl
    · have hpres : (XmLine.processEvent st e).1.siteId = "" := by
        cases e with
        | pubTime t => cases t <;> exact hnone
        | blockStart =>
          have := hB Ev.blockStart (by simp)
          simp [Ev.inBlock] at this
        | siteRef a =>
          cases a with
          | none => rfl
          | some s =>
            have := hL (Ev.siteRef (some s)) (by simp)
            simp [Ev.setsLabel] at this
        | speed p =>
          cases p with
          | none => exact hnone
          | some v => rw [xm_step_speed, xm_flush_site]; exact hnone
        | flow p =>
          cases p with
          | none => exact hnone
          | some v => rw [xm_step_flow, xm_flush_site]; exact hnone
        | otherStart => exact hnone
        | blockEnd =>
          have := hB Ev.blockEnd (by simp)
          simp [Ev.inBlock] at this
        | otherEnd => exact hnone
      exact ih _ (fun x hx => hB x (by simp [hx]))
        (fun x hx => hL x (by simp [hx])) hpres r h

theorem clat_run_append (xs ys : List CLatLong.EvC) :
    ∀ (st : CLatLong.parser_state_t),
    CLatLong.process_reader st (xs ++ ys) =
      ((CLatLong.process_reader (CLatLong.process_reader st xs).1 ys).1,
       (CLatLong.process_reader st xs).2.1 ++
         (CLatLong.process_reader
           (CLatLong.process_reader st xs).1 ys).2.1,
       (CLatLong.process_reader st xs).2.2 ++
         (CLatLong.process_reader
           (CLatLong.process_reader st xs).1 ys).2.2) := by
  induction xs with
  | nil => intro st; simp [CLatLong.process_reader]
  | cons e rest ih =>
    intro st
    rw [List.cons_append, clat_run_cons, clat_run_cons, ih]
    simp [List.append_assoc]

/-- Every record printed by the clatlong.c pairing loop carries the site
and date strings the loop was called with. -/
theorem flushLoopF_records : ∀ (n : Nat) (lat lon : CLatLong.double_ring_t)
    (site date : String) (r : CLatLong.RecC),
    r ∈ CLatLong.recsOfC (CLatLong.flushLoopF site date n lat lon).2.2 →
    r.site = site ∧ r.date = date := by
  intro n
  induction n with
  | zero =>
    intro lat lon site date r hr
    simp [CLatLong.flushLoopF, CLatLong.recsOfC] at hr
  | succ n ih =>
    intro lat lon site date r hr
    simp only [CLatLong.flushLoopF] at hr
    split at hr
    · split at hr
      · simp [CLatLong.recsOfC] at hr
      · split at hr
        · simp [CLatLong.recsOfC] at hr
        · simp only [CLatLong.recsOfC, List.filterMap_cons] at hr
          rcases List.mem_cons.mp hr with h | h
          · subst h
            exact ⟨rfl, rfl⟩
          · exact ih _ _ _ _ r h
    · simp [CLatLong.recsOfC] at hr

theorem clat_flush_site (st : CLatLong.parser_state_t) :
    (CLatLong.state_flush_pairs st).1.site_id = st.site_id := rfl

theorem clat_flush_date (st : CLatLong.parser_state_t) :
    (CLatLong.state_flush_pairs st).1.date = st.date := rfl

/-- Every record printed by one clatlong.c flush carries the
(sentinel-substituted) site and date labels of the state flushed. -/
theorem clat_flush_records (st : CLatLong.parser_state_t) :
    ∀ r ∈ CLatLong.recsOfC (CLatLong.state_flush_pairs st).2,
      r.site = CLatLong.siteOfC st.site_id ∧
      r.date = CLatLong.dateOfC st.date := by
  intro r hr
  exact flushLoopF_records (CLatLong.dq_size st.latitude) st.latitude
    st.longitude (CLatLong.siteOfC st.site_id) (CLatLong.dateOfC st.date) r hr

/-- Within a block, one clatlong.c dispatcher step changes the two label
strings exactly by `updSiteC`/`updDateC`: a present attribute or text
replaces them, a missing one clears them, everything else keeps them. -/
theorem clat_step_site (st : CLatLong.parser_state_t) (e : CLatLong.EvC)
    (hB : CLatLong.EvC.inBlockC e = true) :
    (CLatLong.process_event st e).1.site_id =
      CLatLong.updSiteC st.site_id e ∧
    (CLatLong.process_event st e).1.date = CLatLong.updDateC st.date e := by
  cases e with
  | pubTime t => cases t <;> exact ⟨rfl, rfl⟩
  | blockStart => simp [CLatLong.EvC.inBlockC] at hB
  | siteRec a => cases a <;> exact ⟨rfl, rfl⟩
  | versionTime t => cases t <;> exact ⟨rfl, rfl⟩
  | lat p =>
    cases p with
    | none => exact ⟨rfl, rfl⟩
    | some v =>
      simp only [CLatLong.process_event, CLatLong.handle_start_element,
        CLatLong.h_latitude]
      split <;> exact ⟨rfl, rfl⟩
  | lon p =>
    cases p with
    | none => exact ⟨rfl, rfl⟩
    | some v =>
      simp only [CLatLong.process_event, CLatLong.handle_start_element,
        CLatLong.h_longitude]
      split <;> exact ⟨rfl, rfl⟩
  | otherStart => exact ⟨rfl, rfl⟩
  | blockEnd => simp [CLatLong.EvC.inBlockC] at hB
  | otherEnd => exact ⟨rfl, rfl⟩

/-- Within a block, the clatlong.c labels evolve by folding
`updSiteC`/`updDateC` over the trace. -/
theorem clat_site_inBlock (evs : List CLatLong.EvC) :
    ∀ (st : CLatLong.parser_state_t),
    (∀ e ∈ evs, CLatLong.EvC.inBlockC e = true) →
    (CLatLong.process_reader st evs).1.site_id =
      evs.foldl CLatLong.updSiteC st.site_id ∧
    (CLatLong.process_reader st evs).1.date =
      evs.foldl CLatLong.updDateC st.date := by
  induction evs with
  | nil => intro st _; exact ⟨rfl, rfl⟩
  | cons e rest ih =>
    intro st hB
    have hstep := clat_step_site st e (hB e (by simp))
    have hrest := ih (CLatLong.process_event st e).1
      (fun x hx => hB x (by simp [hx]))
    rw [clat_run_cons]
    simp only [List.foldl_cons]
    constructor
    · rw [hrest.1, hstep.1]
    · rw [hrest.2, hstep.2]

/-- Records printed while clatlong.c handles one in-block notification
all carry the (sentinel-substituted) labels current when the
notification arrived. -/
theorem clat_step_records (st : CLatLong.parser_state_t) (e : CLatLong.EvC)
    (hB : CLatLong.EvC.inBlockC e = true) :
    ∀ r ∈ CLatLong.recsOfC (CLatLong.process_event st e).2.1,
      r.site = CLatLong.siteOfC st.site_id ∧
      r.date = CLatLong.dateOfC st.date := by
  cases e with
  | pubTime t =>
    cases t <;> simp [CLatLong.process_event, CLatLong.handle_start_element,
      CLatLong.recsOfC]
  | blockStart => simp [CLatLong.EvC.inBlockC] at hB
  | siteRec a =>
    cases a <;> simp [CLatLong.process_event, CLatLong.handle_start_element,
      CLatLong.recsOfC]
  | versionTime t =>
    cases t <;> simp [CLatLong.process_event, CLatLong.handle_start_element,
      CLatLong.recsOfC]
  | lat p =>
    cases p with
    | none =>
      simp [CLatLong.process_event, CLatLong.handle_start_element,
        CLatLong.h_latitude, CLatLong.recsOfC]
    | some v =>
      intro r hr
      by_cases hfull : CLatLong.dq_size st.latitude ≥ CLatLong.MAX_PAIRS
      · rw [clat_step_lat_full st v hfull] at hr
        simp [CLatLong.recsOfC] at hr
      · have hb : (CLatLong.dq_push_back st.latitude v).2 = true := by
          simp only [CLatLong.dq_push_back]
          rw [if_neg hfull]
      
        rw [(clat_step_lat_push st v hb).2.1] at hr
        exact clat_flush_records
          { st with latitude := (CLatLong.dq_push_back st.latitude v).1 } r hr
  | lon p =>
    cases p with
    | none =>
      simp [CLatLong.process_event, CLatLong.handle_start_element,
        CLatLong.h_longitude, CLatLong.recsOfC]
    | some v =>
      intro r hr
      by_cases hfull : CLatLong.dq_size st.longitude ≥ CLatLong.MAX_PAIRS
      · rw [clat_step_lon_full st v hfull] at hr
        simp [CLatLong.recsOfC] at hr
      · have hb : (CLatLong.dq_push_back st.longitude v).2 = true := by
          simp only [CLatLong.dq_push_back]
          rw [if_neg hfull]
      
        rw [(clat_step_lon_push st v hb).2.1] at hr
        exact clat_flush_records
          { st with longitude := (CLatLong.dq_push_back st.longitude v).1 } r hr
  | otherStart =>
    simp [CLatLong.process_event, CLatLong.handle_start_element,
      CLatLong.recsOfC]
  | blockEnd => simp [CLatLong.EvC.inBlockC] at hB
  | otherEnd => simp [CLatLong.process_event, CLatLong.recsOfC]

/-- If no event of an in-block trace sets the clatlong.c site label and
the label starts empty, every record printed carries the sentinel site
(a missing-attribute reference re-clears it, preserving the
invariant). -/
theorem clat_nolabel (evs : List CLatLong.EvC) :
    ∀ (st : CLatLong.parser_state_t),
    (∀ e ∈ evs, CLatLong.EvC.inBlockC e = true) →
    (∀ e ∈ evs, CLatLong.EvC.setsSiteC e = false) →
    st.site_id = "" →
    ∀ r ∈ CLatLong.recsOfC (CLatLong.process_reader st evs).2.1,
      r.site = "(unknown_site)" := by
  induction evs with
  | nil =>
    intro st _ _ _ r hr
    simp [CLatLong.process_reader, CLatLong.recsOfC] at hr
  | cons e rest ih =>
    intro st hB hL hnone r hr
    rw [clat_run_cons] at hr
    simp only [] at hr
    rw [recsOfC_append] at hr
    rcases List.mem_append.mp hr with h | h
    · have hs := (clat_step_records st e (hB e (by simp)) r h).1
      rw [hs, hnone]
      decide
    · have hpres : (CLatLong.process_event st e).1.site_id = "" := by
        rw [(clat_step_site st e (hB e (by simp))).1, hnone]
        cases e with
        | pubTime t => cases t <;> rfl
        | blockStart => rfl
        | siteRec a =>
          cases a with
          | none => rfl
          | some s =>
            have := hL (CLatLong.EvC.siteRec (some s)) (by simp)
            simp [CLatLong.EvC.setsSiteC] at this
        | versionTime t => cases t <;> rfl
        | lat p => cases p <;> rfl
        | lon p => cases p <;> rfl
        | otherStart => rfl
        | blockEnd => rfl
        | otherEnd => rfl
      exact ih _ (fun x hx => hB x (by simp [hx]))
        (fun x hx => hL x (by simp [hx])) hpres r h

theorem xm_step_speed_mk (si : String) (sp fl : List Int) (ix : Nat)
    (v : Int) :
    XmLine.processEvent ⟨si, sp, fl, ix⟩ (Ev.speed (some v)) =
      XmLine.flushPairs ⟨si, sp ++ [v], fl, ix⟩ := rfl

theorem xm_step_flow_mk (si : String) (sp fl : List Int) (ix : Nat)
    (v : Int) :
    XmLine.processEvent ⟨si, sp, fl, ix⟩ (Ev.flow (some v)) =
      XmLine.flushPairs ⟨si, sp, fl ++ [v], ix⟩ := rfl

theorem xm_flush_eq_mk (si : String) (sp fl : List Int) (ix : Nat) :
    XmLine.flushPairs ⟨si, sp, fl, ix⟩ =
      (⟨si, sp.drop (sp.zip fl).length, fl.drop (sp.zip fl).length,
        idxAdd ix (sp.zip fl).length⟩,
       (recsFrom (XmLine.siteOfXm si) ix (sp.zip fl)).map LineX.record) := by
  simp [XmLine.flushPairs, flushLoop_eq, XmLine.siteOfXm]

/-- Within a block, the xmline.cpp pair counter runs consecutively: if
it holds (1+k) mod 2^32 at the start, the j-th record printed during
the trace carries index (1+k+j) mod 2^32 and the counter ends at
(1+k+total) mod 2^32. -/
theorem xm_run_idx (evs : List Ev) : ∀ (st : XmLine.ParserState) (k : Nat),
    (∀ e ∈ evs, e.inBlock = true) →
    st.idx = (1 + k) % U32 →
    (XmLine.processReader st evs).1.idx =
        (1 + k + (recsOfX (XmLine.processReader st evs).2).length) % U32 ∧
    ∀ j, j < (recsOfX (XmLine.processReader st evs).2).length →
      ((recsOfX (XmLine.processReader st evs).2).getD j dRec).idx =
        (1 + k + j) % U32 := by
  induction evs with
  | nil =>
    intro st k _ hidx
    constructor
    · simpa [XmLine.processReader, recsOfX] using hidx
    · intro j hj
      simp [XmLine.processReader, recsOfX] at hj
  | cons e rest ih =>
    intro st k hB hidx
    obtain ⟨si, sp, fl, ix⟩ := st
    simp only at hidx
    have heB := hB e (by simp)
    have hrest : ∀ x ∈ rest, x.inBlock = true := fun x hx => hB x (by simp [hx])
    rw [xm_run_cons, recsOfX_append]
    simp only []
    cases e with
    | pubTime t =>
      cases t with
      | none =>
        have h := ih ⟨si, sp, fl, ix⟩ k hrest hidx
        simpa [XmLine.processEvent, XmLine.handleStartElement, recsOfX] using h
      | some s =>
        have h := ih ⟨si, sp, fl, ix⟩ k hrest hidx
        simpa [XmLine.processEvent, XmLine.handleStartElement, recsOfX] using h
    | blockStart => simp [Ev.inBlock] at heB
    | blockEnd => simp [Ev.inBlock] at heB
    | otherStart =>
      have h := ih ⟨si, sp, fl, ix⟩ k hrest hidx
      simpa [XmLine.processEvent, XmLine.handleStartElement, recsOfX] using h
    | otherEnd =>
      have h := ih ⟨si, sp, fl, ix⟩ k hrest hidx
      simpa [XmLine.processEvent, recsOfX] using h
    | siteRef a =>
      cases a with
      | none =>
        have h := ih ⟨"", sp, fl, ix⟩ k hrest hidx
        simpa [XmLine.processEvent, XmLine.handleStartElement, recsOfX] using h
      | some s =>
        have h := ih ⟨s, sp, fl, ix⟩ k hrest hidx
        simpa [XmLine.processEvent, XmLine.handleStartElement, recsOfX] using h
    | speed p =>
      cases p with
      | none =>
        have h := ih ⟨si, sp, fl, ix⟩ k hrest hidx
        simpa [XmLine.processEvent, XmLine.handleStartElement, recsOfX] using h
      | some v =>
        rw [xm_step_speed_mk, xm_flush_eq_mk]
        simp only []
        have hlen1 : (recsOfX ((recsFrom (XmLine.siteOfXm si) ix
            ((sp ++ [v]).zip fl)).map LineX.record)).length =
            ((sp ++ [v]).zip fl).length := by
          rw [recsOfX_map_record, recsFrom_length]
        have h := ih ⟨si, (sp ++ [v]).drop ((sp ++ [v]).zip fl).length,
            fl.drop ((sp ++ [v]).zip fl).length,
            idxAdd ix ((sp ++ [v]).zip fl).length⟩
          (k + ((sp ++ [v]).zip fl).length) hrest (by
            show idxAdd ix ((sp ++ [v]).zip fl).length = _
            rw [hidx, idxAdd_mod]
            congr 1
            omega)
        obtain ⟨h1, h2⟩ := h
        constructor
        · rw [List.length_append, hlen1, h1]
          congr 1
          omega
        · intro j hj
          rw [List.length_append, hlen1] at hj
          by_cases hjm : j < ((sp ++ [v]).zip fl).length
          · rw [List.getD_append _ _ _ _ (by rw [hlen1]; exact hjm)]
            rw [recsOfX_map_record]
            rw [recsFrom_getD _ _ _ _ hjm]
            rw [hidx, idxAdd_mod]
          · rw [List.getD_append_right _ _ _ _ (by rw [hlen1]; omega)]
            rw [hlen1]
            rw [h2 _ (by omega)]
            congr 1
            omega
    | flow p =>
      cases p with
      | none =>
        have h := ih ⟨si, sp, fl, ix⟩ k hrest hidx
        simpa [XmLine.processEvent, XmLine.handleStartElement, recsOfX] using h
      | some v =>
        rw [xm_step_flow_mk, xm_flush_eq_mk]
        simp only []
        have hlen1 : (recsOfX ((recsFrom (XmLine.siteOfXm si) ix
            (sp.zip (fl ++ [v]))).map LineX.record)).length =
            (sp.zip (fl ++ [v])).length := by
          rw [recsOfX_map_record, recsFrom_length]
        have h := ih ⟨si, sp.drop (sp.zip (fl ++ [v])).length,
            (fl ++ [v]).drop (sp.zip (fl ++ [v])).length,
            idxAdd ix (sp.zip (fl ++ [v])).length⟩
          (k + (sp.zip (fl ++ [v])).length) hrest (by
            show idxAdd ix (sp.zip (fl ++ [v])).length = _
            rw [hidx, idxAdd_mod]
            congr 1
            omega)
        obtain ⟨h1, h2⟩ := h
        constructor
        · rw [List.length_append, hlen1, h1]
          congr 1
          omega
        · intro j hj
          rw [List.length_append, hlen1] at hj
          by_cases hjm : j < (sp.zip (fl ++ [v])).length
          · rw [List.getD_append _ _ _ _ (by rw [hlen1]; exact hjm)]
            rw [recsOfX_map_record]
            rw [recsFrom_getD _ _ _ _ hjm]
            rw [hidx, idxAdd_mod]
          · rw [List.getD_append_right _ _ _ _ (by rw [hlen1]; omega)]
            rw [hlen1]
            rw [h2 _ (by omega)]
            congr 1
            omega

/-- C3 (counterexample): in xmline.cpp a measurementSiteReference whose
id attribute is missing CLEARS the stored label (readAttribute writes
the empty string), so a pair completed after it prints the sentinel even
though "A" was the label last set before the pair's constituents had all
been pushed — the printed label is not the last label SET. -/
theorem c3_counterexample :
    ((recsOfX (XmLine.processReader XmLine.init
        ([Ev.siteRef (some "A"), Ev.speed (some 10), Ev.siteRef none] ++
          [Ev.flow (some 20)])).2).getD 0 dRec).site = "(unknown_site)" ∧
    lastLabelSet [Ev.siteRef (some "A"), Ev.speed (some 10),
        Ev.siteRef none] = some "A" ∧
    CXml.siteOf (lastLabelSet [Ev.siteRef (some "A"), Ev.speed (some 10),
        Ev.siteRef none]) = "A" ∧
    ("(unknown_site)" : String) ≠ "A" := by
  refine ⟨by decide, by decide, by decide, by decide⟩

/-- C3 (amended): the label printed with a pair is the label in force
when the pair was completed.  In cxml.c a missing id attribute keeps the
stored label, so that is the label last SET (by a present
measurementSiteReference id) before the pair's completing push; in
xmline.cpp and clatlong.c a missing attribute (or absent
versionTime text) CLEARS the stored label, so the printed label is the
result of the last label-setting-or-clearing reference before the
completing push (`updLabelXm` / `updSiteC` / `updDateC` folded over the
preceding in-block events); clatlong.c scopes its version-date label the
same way.  In every variant a block in which no label is ever set prints
the "(unknown_site)" sentinel. -/
theorem c3_label_scoping :
    (∀ (pre : List Ev) (e : Ev) (i : Nat),
      allInBlock (pre ++ [e]) = true →
      e.isSuccPush = true →
      (recsOfX (CXml.process_reader CXml.state_init pre).2).length ≤ i →
      i < (recsOfX (CXml.process_reader CXml.state_init
            (pre ++ [e])).2).length →
      ((recsOfX (CXml.process_reader CXml.state_init
          (pre ++ [e])).2).getD i dRec).site =
        CXml.siteOf (lastLabelSet pre)) ∧
    (∀ evs : List Ev, allInBlock evs = true →
      (∀ e ∈ evs, e.setsLabel = false) →
      ∀ r ∈ recsOfX (CXml.process_reader CXml.state_init evs).2,
        r.site = "(unknown_site)") ∧
    (∀ (pre : List Ev) (e : Ev) (i : Nat),
      allInBlock (pre ++ [e]) = true →
      e.isSuccPush = true →
      (recsOfX (XmLine.processReader XmLine.init pre).2).length ≤ i →
      i < (recsOfX (XmLine.processReader XmLine.init
            (pre ++ [e])).2).length →
      ((recsOfX (XmLine.processReader XmLine.init
          (pre ++ [e])).2).getD i dRec).site =
        XmLine.siteOfXm (lastLabelXm pre)) ∧
    (∀ evs : List Ev, allInBlock evs = true →
      (∀ e ∈ evs, e.setsLabel = false) →
      ∀ r ∈ recsOfX (XmLine.processReader XmLine.init evs).2,
        r.site = "(unknown_site)") ∧
    (∀ (pre : List CLatLong.EvC) (e : CLatLong.EvC) (i : Nat),
      CLatLong.allInBlockC (pre ++ [e]) = true →
      CLatLong.EvC.isPushC e = true →
      (CLatLong.recsOfC (CLatLong.process_reader CLatLong.state_init
          pre).2.1).length ≤ i →
      i < (CLatLong.recsOfC (CLatLong.process_reader CLatLong.state_init
            (pre ++ [e])).2.1).length →
      ((CLatLong.recsOfC (CLatLong.process_reader CLatLong.state_init
          (pre ++ [e])).2.1).getD i CLatLong.dRecC).site =
          CLatLong.siteOfC (CLatLong.lastSiteC pre) ∧
      ((CLatLong.recsOfC (CLatLong.process_reader CLatLong.state_init
          (pre ++ [e])).2.1).getD i CLatLong.dRecC).date =
          CLatLong.dateOfC (CLatLong.lastDateC pre)) ∧
    (∀ evs : List CLatLong.EvC, CLatLong.allInBlockC evs = true →
      (∀ e ∈ evs, CLatLong.EvC.setsSiteC e = false) →
      ∀ r ∈ CLatLong.recsOfC
          (CLatLong.process_reader CLatLong.state_init evs).2.1,
        r.site = "(unknown_site)") := by
  refine ⟨?_, ?_, ?_, ?_, ?_, ?_⟩
  · intro pre e i hB hp hlow hhigh
    have hBall : ∀ x ∈ pre ++ [e], x.inBlock = true := by
      intro x hx
      exact List.all_eq_true.mp hB x hx
    have hBpre : ∀ x ∈ pre, x.inBlock = true :=
      fun x hx => hBall x (by simp [hx])
    have heB : e.inBlock = true := hBall e (by simp)
    rw [cx_run_append] at hhigh ⊢
    rw [recsOfX_append] at hhigh ⊢
    rw [List.getD_append_right _ _ _ _ hlow]
    have hlen2 : i - (recsOfX (CXml.process_reader CXml.state_init
        pre).2).length <
        (recsOfX (CXml.process_reader
          (CXml.process_reader CXml.state_init pre).1 [e]).2).length := by
      rw [List.length_append] at hhigh
      omega
    rw [List.getD_eq_getElem _ _ hlen2]
    have hmem := List.getElem_mem hlen2
    have hsite : ∀ r ∈ recsOfX (CXml.process_reader
        (CXml.process_reader CXml.state_init pre).1 [e]).2,
        r.site =
          CXml.siteOf (CXml.process_reader CXml.state_init pre).1.site_id := by
      intro r hr
      apply cx_step_records_site _ e heB
      have hsingle : (CXml.process_reader
          (CXml.process_reader CXml.state_init pre).1 [e]).2 =
          (CXml.process_event
            (CXml.process_reader CXml.state_init pre).1 e).2 := by
        simp [CXml.process_reader]
      rwa [hsingle] at hr
    rw [hsite _ hmem]
    have hlab := cx_site_inBlock pre CXml.state_init hBpre
    rw [hlab]
    rfl
  · intro evs hB hL
    exact cx_nolabel evs CXml.state_init
      (fun x hx => List.all_eq_true.mp hB x hx) hL rfl
  · intro pre e i hB hp hlow hhigh
    have hBall : ∀ x ∈ pre ++ [e], x.inBlock = true := by
      intro x hx
      exact List.all_eq_true.mp hB x hx
    have hBpre : ∀ x ∈ pre, x.inBlock = true :=
      fun x hx => hBall x (by simp [hx])
    have heB : e.inBlock = true := hBall e (by simp)
    rw [xm_run_append] at hhigh ⊢
    rw [recsOfX_append] at hhigh ⊢
    rw [List.getD_append_right _ _ _ _ hlow]
    have hlen2 : i - (recsOfX (XmLine.processReader XmLine.init
        pre).2).length <
        (recsOfX (XmLine.processReader
          (XmLine.processReader XmLine.init pre).1 [e]).2).length := by
      rw [List.length_append] at hhigh
      omega
    rw [List.getD_eq_getElem _ _ hlen2]
    have hmem := List.getElem_mem hlen2
    have hsite : ∀ r ∈ recsOfX (XmLine.processReader
        (XmLine.processReader XmLine.init pre).1 [e]).2,
        r.site = XmLine.siteOfXm
          (XmLine.processReader XmLine.init pre).1.siteId := by
      intro r hr
      apply xm_step_records_site _ e heB
      have hsingle : (XmLine.processReader
          (XmLine.processReader XmLine.init pre).1 [e]).2 =
          (XmLine.processEvent
            (XmLine.processReader XmLine.init pre).1 e).2 := by
        simp [XmLine.processReader]
      rwa [hsingle] at hr
    rw [hsite _ hmem]
    have hlab := xm_site_inBlock pre XmLine.init hBpre
    rw [hlab]
    rfl
  · intro evs hB hL
    exact xm_nolabel evs XmLine.init
      (fun x hx => List.all_eq_true.mp hB x hx) hL rfl
  · intro pre e i hB hp hlow hhigh
    have hBall : ∀ x ∈ pre ++ [e], CLatLong.EvC.inBlockC x = true := by
      intro x hx
      exact List.all_eq_true.mp hB x hx
    have hBpre : ∀ x ∈ pre, CLatLong.EvC.inBlockC x = true :=
      fun x hx => hBall x (by simp [hx])
    have heB : CLatLong.EvC.inBlockC e = true := hBall e (by simp)
    rw [clat_run_append] at hhigh ⊢
    rw [recsOfC_append] at hhigh ⊢
    rw [List.getD_append_right _ _ _ _ hlow]
    have hlen2 : i - (CLatLong.recsOfC (CLatLong.process_reader
        CLatLong.state_init pre).2.1).length <
        (CLatLong.recsOfC (CLatLong.process_reader
          (CLatLong.process_reader CLatLong.state_init pre).1
          [e]).2.1).length := by
      rw [List.length_append] at hhigh
      omega
    rw [List.getD_eq_getElem _ _ hlen2]
    have hmem := List.getElem_mem hlen2
    have hsd : ∀ r ∈ CLatLong.recsOfC (CLatLong.process_reader
        (CLatLong.process_reader CLatLong.state_init pre).1 [e]).2.1,
        r.site = CLatLong.siteOfC
          (CLatLong.process_reader CLatLong.state_init pre).1.site_id ∧
        r.date = CLatLong.dateOfC
          (CLatLong.process_reader CLatLong.state_init pre).1.date := by
      intro r hr
      apply clat_step_records _ e heB
      have hsingle : (CLatLong.process_reader
          (CLatLong.process_reader CLatLong.state_init pre).1 [e]).2.1 =
          (CLatLong.process_event
            (CLatLong.process_reader CLatLong.state_init pre).1 e).2.1 := by
        simp [CLatLong.process_reader]
      rwa [hsingle] at hr
    have hlab := clat_site_inBlock pre CLatLong.state_init hBpre
    constructor
    · rw [(hsd _ hmem).1, hlab.1]
      rfl
    · rw [(hsd _ hmem).2, hlab.2]
      rfl
  · intro evs hB hL
    exact clat_nolabel evs CLatLong.state_init
      (fun x hx => List.all_eq_true.mp hB x hx) hL rfl

/-- Witness for C3 (amended) on concrete traces: in cxml.c a label set
between the two constituents of a pair is printed with it; in
xmline.cpp the pair completed after a missing-id reference prints the
sentinel; in clatlong.c both labels in force at the completing push are
printed; unlabelled blocks print the sentinel in every variant. -/
theorem c3_label_scoping_witness :
    ((recsOfX (CXml.process_reader CXml.state_init
        ([Ev.speed (some 10), Ev.siteRef (some "S1")] ++
          [Ev.flow (some 20)])).2).getD 0 dRec).site = "S1" ∧
    (∀ r ∈ recsOfX (CXml.process_reader CXml.state_init
        [Ev.speed (some 7), Ev.flow (some 8)]).2,
      r.site = "(unknown_site)") ∧
    ((recsOfX (XmLine.processReader XmLine.init
        ([Ev.siteRef (some "A"), Ev.speed (some 10), Ev.siteRef none] ++
          [Ev.flow (some 20)])).2).getD 0 dRec).site = "(unknown_site)" ∧
    (∀ r ∈ recsOfX (XmLine.processReader XmLine.init
        [Ev.speed (some 7), Ev.flow (some 8)]).2,
      r.site = "(unknown_site)") ∧
    ((CLatLong.recsOfC (CLatLong.process_reader CLatLong.state_init
        ([CLatLong.EvC.siteRec (some "S"),
          CLatLong.EvC.versionTime (some "D"),
          CLatLong.EvC.lat (some 1)] ++
          [CLatLong.EvC.lon (some 2)])).2.1).getD 0 CLatLong.dRecC).site =
        "S" ∧
    ((CLatLong.recsOfC (CLatLong.process_reader CLatLong.state_init
        ([CLatLong.EvC.siteRec (some "S"),
          CLatLong.EvC.versionTime (some "D"),
          CLatLong.EvC.lat (some 1)] ++
          [CLatLong.EvC.lon (some 2)])).2.1).getD 0 CLatLong.dRecC).date =
        "D" ∧
    (∀ r ∈ CLatLong.recsOfC (CLatLong.process_reader CLatLong.state_init
        [CLatLong.EvC.lat (some 3), CLatLong.EvC.lon (some 4)]).2.1,
      r.site = "(unknown_site)") := by
  refine ⟨?_, ?_, ?_, ?_, ?_, ?_, ?_⟩
  · have h := c3_label_scoping.1 [Ev.speed (some 10), Ev.siteRef (some "S1")]
      (Ev.flow (some 20)) 0 (by decide) (by decide) (by decide) (by decide)
    rw [h]
    decide
  · intro r hr
    exact c3_label_scoping.2.1 [Ev.speed (some 7), Ev.flow (some 8)]
      (by decide) (by decide) r hr
  · have h := c3_label_scoping.2.2.1
      [Ev.siteRef (some "A"), Ev.speed (some 10), Ev.siteRef none]
      (Ev.flow (some 20)) 0 (by decide) (by decide) (by decide) (by decide)
    rw [h]
    decide
  · intro r hr
    exact c3_label_scoping.2.2.2.1 [Ev.speed (some 7), Ev.flow (some 8)]
      (by decide) (by decide) r hr
  · have h := (c3_label_scoping.2.2.2.2.1
      [CLatLong.EvC.siteRec (some "S"), CLatLong.EvC.versionTime (some "D"),
        CLatLong.EvC.lat (some 1)]
      (CLatLong.EvC.lon (some 2)) 0 (by decide) (by decide) (by decide)
      (by decide)).1
    rw [h]
    decide
  · have h := (c3_label_scoping.2.2.2.2.1
      [CLatLong.EvC.siteRec (some "S"), CLatLong.EvC.versionTime (some "D"),
        CLatLong.EvC.lat (some 1)]
      (CLatLong.EvC.lon (some 2)) 0 (by decide) (by decide) (by decide)
      (by decide)).2
    rw [h]
    decide
  · intro r hr
    exact c3_label_scoping.2.2.2.2.2
      [CLatLong.EvC.lat (some 3), CLatLong.EvC.lon (some 4)]
      (by decide) (by decide) r hr

/-- C9 (amended): every record of the indexed variants (cxml.c,
xmline.cpp) has fields, in order, 1-based pair index, block label (or
sentinel), first value, second value, and within a block the indices of
both variants run 1, 2, 3, ... (mod 2^32); every clatlong.c record has,
in order, the site label (or its sentinel), the version-date label (or
its sentinel), first value, second value. -/
theorem c9_record_fields :
    (∀ (evsX : List Ev),
      ∀ r ∈ recsOfX (CXml.process_reader CXml.state_init evsX).2,
        specIndexedShape (fieldsOfRecX r)) ∧
    (∀ (evsX : List Ev), allInBlock evsX = true →
      ∀ j, ∀ hj : j < (recsOfX (CXml.process_reader CXml.state_init
          evsX).2).length,
        ((recsOfX (CXml.process_reader CXml.state_init evsX).2).getD j
          dRec).idx = (1 + j) % U32) ∧
    (∀ (evsX : List Ev),
      ∀ r ∈ recsOfX (XmLine.processReader XmLine.init evsX).2,
        specIndexedShape (fieldsOfRecX r)) ∧
    (∀ (evsX : List Ev), allInBlock evsX = true →
      ∀ j, ∀ hj : j < (recsOfX (XmLine.processReader XmLine.init
          evsX).2).length,
        ((recsOfX (XmLine.processReader XmLine.init evsX).2).getD j
          dRec).idx = (1 + j) % U32) ∧
    (∀ (evsC : List CLatLong.EvC),
      ∀ r ∈ CLatLong.recsOfC
          (CLatLong.process_reader CLatLong.state_init evsC).2.1,
        fieldsOfRecC r = [OutField.str r.site, OutField.str r.date,
          OutField.num r.lat, OutField.num r.lon] ∧
        ¬ specPlainShape (fieldsOfRecC r)) := by
  refine ⟨?_, ?_, ?_, ?_, ?_⟩
  · intro evsX r _
    exact ⟨r.idx, r.site, r.speed, r.flow, rfl⟩
  · intro evsX hB j hj
    have h := cx_run_idx evsX CXml.state_init 0
      (fun x hx => List.all_eq_true.mp hB x hx) rfl
    have := h.2 j hj
    simpa using this
  · intro evsX r _
    exact ⟨r.idx, r.site, r.speed, r.flow, rfl⟩
  · intro evsX hB j hj
    have h := xm_run_idx evsX XmLine.init 0
      (fun x hx => List.all_eq_true.mp hB x hx) rfl
    have := h.2 j hj
    simpa using this
  · intro evsC r _
    refine ⟨rfl, ?_⟩
    rintro ⟨lab, v1, v2, h⟩
    simp [fieldsOfRecC] at h

/-- Witness for C9 (amended) on concrete traces. -/
theorem c9_record_fields_witness :
    specIndexedShape (fieldsOfRecX
      ((recsOfX (CXml.process_reader CXml.state_init
        [Ev.speed (some 1), Ev.flow (some 2)]).2).getD 0 dRec)) ∧
    ((recsOfX (CXml.process_reader CXml.state_init
        [Ev.speed (some 1), Ev.flow (some 2)]).2).getD 0 dRec).idx = 1 ∧
    specIndexedShape (fieldsOfRecX
      ((recsOfX (XmLine.processReader XmLine.init
        [Ev.speed (some 5), Ev.flow (some 6)]).2).getD 0 dRec)) ∧
    ((recsOfX (XmLine.processReader XmLine.init
        [Ev.speed (some 5), Ev.flow (some 6)]).2).getD 0 dRec).idx = 1 ∧
    ¬ specPlainShape (fieldsOfRecC
      ((CLatLong.recsOfC (CLatLong.process_reader CLatLong.state_init
        [CLatLong.EvC.lat (some 3), CLatLong.EvC.lon (some 4)]).2.1).getD 0
        ⟨"", "", 0, 0⟩)) := by
  refine ⟨?_, ?_, ?_, ?_, ?_⟩
  · have h := c9_record_fields.1 [Ev.speed (some 1), Ev.flow (some 2)]
      ((recsOfX (CXml.process_reader CXml.state_init
        [Ev.speed (some 1), Ev.flow (some 2)]).2).getD 0 dRec)
      (by decide)
    exact h
  · have h := c9_record_fields.2.1 [Ev.speed (some 1), Ev.flow (some 2)]
      (by decide) 0 (by decide)
    rw [h]
    decide
  · have h := c9_record_fields.2.2.1 [Ev.speed (some 5), Ev.flow (some 6)]
      ((recsOfX (XmLine.processReader XmLine.init
        [Ev.speed (some 5), Ev.flow (some 6)]).2).getD 0 dRec)
      (by decide)
    exact h
  · have h := c9_record_fields.2.2.2.1 [Ev.speed (some 5), Ev.flow (some 6)]
      (by decide) 0 (by decide)
    rw [h]
    decide
  · have h := c9_record_fields.2.2.2.2
      [CLatLong.EvC.lat (some 3), CLatLong.EvC.lon (some 4)]
      ((CLatLong.recsOfC (CLatLong.process_reader CLatLong.state_init
        [CLatLong.EvC.lat (some 3), CLatLong.EvC.lon (some 4)]).2.1).getD 0
        ⟨"", "", 0, 0⟩)
      (by decide)
    exact h.2
